import Mathlib

/-!
Verification development for the `team_ops.py` coordination tool
(`skills_by_openai/codex-agent-teams/scripts/team_ops.py`).

The Python source is shallowly embedded below: stored JSON records become
Lean structures, file-borne state becomes an explicit `PState` value that
operations thread through, each fallible write is guarded by an `Env` flag
(`true` = the write succeeds, `false` = the write raises), and machine
floats used for confidence scores are modelled as rationals.  Error exits
(`SystemExit`) become error results carrying the state persisted so far.
-/

namespace TeamOps

/-- `TASK_STATUSES` from the source (a set; modelled as a list used only
for membership). -/
def TASK_STATUSES : List String := ["pending", "in_progress", "completed"]

/-- A position record appended by `cmd_add_position`.  The stored
`confidence` field may be absent or non-numeric in on-disk state; both are
modelled as `none` (the source defaults either to `1.0` inside
`choose_decision`).  `at_` models the `"at"` timestamp field. -/
structure Position where
  at_ : String
  member : String
  option : String
  confidence : Option ℚ
  rationale : String
deriving Repr, DecidableEq

/-- The confidence value `choose_decision` uses for a position:
`position.get("confidence", 1.0)` with non-numeric values replaced by
`1.0`. -/
def confidenceValue (c : Option ℚ) : ℚ := c.getD 1

/-- A decision record written by `cmd_decide_debate` /
`cmd_orchestrate_debate`.  `scores` models the per-option score dict as an
association list keyed by the debate's (deduplicated) options. -/
structure DecisionRec where
  at_ : String
  decider : String
  option : String
  method : String
  scores : List (String × ℚ)
  rationale : String
deriving Repr, DecidableEq

/-- The applied record written by `apply_decision_to_task` (`by` in the
source is `appliedBy` here; `by` is reserved in Lean). -/
structure AppliedRec where
  at_ : String
  appliedBy : String
  task_id : String
  status : String
  owner : String
  option : String
deriving Repr, DecidableEq

/-- A debate record as stored on the debate board. `task_id` is `none`
when no task is linked (the source stores `null`). -/
structure Debate where
  id : String
  topic : String
  task_id : Option String
  options : List String
  members : List String
  decider : String
  status : String
  positions : List Position
  decision : Option DecisionRec
  applied : Option AppliedRec
  created_at : String
  updated_at : String
deriving Repr, DecidableEq

/-- A timestamped task note. -/
structure Note where
  at_ : String
  text : String
deriving Repr, DecidableEq

/-- A task record as stored on the task board. -/
structure TaskRec where
  id : String
  title : String
  owner : String
  status : String
  depends_on : List String
  notes : List Note
  created_at : String
  updated_at : String
deriving Repr, DecidableEq

/-- A message appended to `messages.jsonl` (`type`/`from`/`to` in the
source become `kind`/`sender`/`recipient`; the first two are reserved or
awkward in Lean). -/
structure Message where
  at_ : String
  kind : String
  sender : String
  recipient : String
  body : String
deriving Repr, DecidableEq

/-! ## latest_positions -/

/-- One step of the `latest[member] = item` dict assignment: if the member
is already a key the stored item is replaced in place (Python dicts keep
the original key position), otherwise the pair is appended. -/
def insertLatest (acc : List Position) (p : Position) : List Position :=
  if acc.any (fun q => q.member == p.member) then
    acc.map (fun q => if q.member == p.member then p else q)
  else acc ++ [p]

/-- `latest_positions`: fold over the stored positions, keeping the last
position per member (append order).  Entries whose `member` is not a
non-empty string are skipped, mirroring the
`isinstance(member, str) and member` guard. -/
def latest_positions (positions : List Position) : List Position :=
  positions.foldl (fun acc p => if p.member == "" then acc else insertLatest acc p) []

/-! ## choose_decision -/

/-- The `scores[str(option)] += float(confidence)` update: every entry of
the score list whose key equals the option gets the confidence added. -/
def addScore (scores : List (String × ℚ)) (opt : String) (c : ℚ) :
    List (String × ℚ) :=
  scores.map (fun s => if s.1 == opt then (s.1, s.2 + c) else s)

/-- The scoring loop of `choose_decision`: starting from
`{opt: 0.0 for opt in option_set}`, walk the latest positions and add each
position's (defaulted) confidence to its chosen option's entry, skipping
positions whose option is not in the option set. -/
def computeScores (optionSet : List String) (latest : List Position) :
    List (String × ℚ) :=
  latest.foldl
    (fun scores p =>
      if p.option ∈ optionSet then
        addScore scores p.option (confidenceValue p.confidence)
      else scores)
    (optionSet.map (fun o => (o, 0)))

/-- The score dict of `choose_decision`:
`scores = {opt: 0.0 for opt in option_set}` followed by the scoring loop.
`debate.options.dedup` models the Python set `option_set` (used only
through membership, keys, and a final sort). -/
def engineScores (debate : Debate) : List (String × ℚ) :=
  computeScores debate.options.dedup (latest_positions debate.positions)

/-- `max_score = max(scores.values())`, modelled with `List.max?` (`0`
never surfaces: the scores list is non-empty whenever this is used). -/
def engineMax (debate : Debate) : ℚ :=
  (((engineScores debate).map Prod.snd).max?).getD 0

/-- `winners = sorted([opt for opt, score in scores.items() if score == max_score])`. -/
def engineWinners (debate : Debate) : List String :=
  (((engineScores debate).filter (fun s => s.2 == engineMax debate)).map Prod.fst).mergeSort
    (fun a b => decide (a ≤ b))

/-- `choose_decision`: returns `(selected option, method, scores, latest)`
or the `SystemExit` message.  The guard on empty-string options models
`require_string_list` (non-string options are unrepresentable here). -/
def choose_decision (debate : Debate) :
    Except String (String × String × List (String × ℚ) × List Position) :=
  if debate.options.any (fun o => o == "") then
    .error "Debate options are corrupted: options must be non-empty strings."
  else if debate.options.dedup.isEmpty then
    .error "Debate has no options to decide from."
  else if (latest_positions debate.positions).isEmpty then
    .error "No positions submitted yet; cannot decide debate."
  else if !((engineScores debate).any (fun s => decide (0 < s.2))) then
    .error "All position scores are zero; cannot auto-decide."
  else
    match engineWinners debate with
    | [] => .error "All position scores are zero; cannot auto-decide."
    | w :: rest =>
      if rest.isEmpty then
        .ok (w, "score", engineScores debate, latest_positions debate.positions)
      else
        match (latest_positions debate.positions).find? (fun p => p.member == debate.decider) with
        | some p =>
          if p.option ∈ engineWinners debate then
            .ok (p.option, "tie_decider", engineScores debate, latest_positions debate.positions)
          else
            .ok (w, "tie_lexical", engineScores debate, latest_positions debate.positions)
        | none =>
          .ok (w, "tie_lexical", engineScores debate, latest_positions debate.positions)

/-! ## Spec-side notions for the decision engine

These definitions follow the wording of the specification (scores as sums
of latest-position confidences, tie set as the options attaining the
maximum); the theorems below connect them to `choose_decision`. -/

/-- The total confidence mass a list of positions puts on one option. -/
def sumConf (l : List Position) (o : String) : ℚ :=
  ((l.filter (fun p => p.option == o)).map (fun p => confidenceValue p.confidence)).sum

/-- Spec-side score of an option: the sum of the (default-1.0)
confidences of the members' latest positions that chose it. -/
def specScore (positions : List Position) (opt : String) : ℚ :=
  sumConf (latest_positions positions) opt

/-- Spec-side: the option the decider's latest position voted for, if the
decider has a standing position. -/
def deciderLatestPick (d : Debate) : Option String :=
  ((latest_positions d.positions).find? (fun p => p.member == d.decider)).map (·.option)

/-- Spec-side: the options tied for the maximum score. -/
def tiedWinners (d : Debate) : List String :=
  d.options.dedup.filter (fun o =>
    decide (∀ o' ∈ d.options.dedup, specScore d.positions o' ≤ specScore d.positions o))

/-! ## Persistent state and effect model -/

/-- The per-team persisted state the claims touch: the task board
(`tasks.json`), the debate board (`debates.json`) with their next-id
counters, and the message log (`messages.jsonl`).  Monitor logging is
modelled as disabled (the default: no `--monitoring` flag, no env
toggle). -/
structure PState where
  taskBoard : List TaskRec
  taskNextId : Int
  debateBoard : List Debate
  debateNextId : Int
  messages : List Message
deriving Repr, DecidableEq

/-- Which file writes succeed during one invocation (`true` = the write
is persisted, `false` = that write raises `SystemExit`).  Single-file
writes are atomic (`write_text_file` renames a temp file into place), so
a failed write leaves that file untouched. -/
structure Env where
  taskWriteOk : Bool
  msgAppendOk : Bool
  debateWriteOk : Bool
deriving Repr, DecidableEq

/-- The environment in which every write succeeds. -/
def allOk : Env := ⟨true, true, true⟩

/-- Outcome of a mutating command: normal completion or `SystemExit`;
both carry the state persisted on disk at that point. -/
inductive OpResult where
  | ok (st : PState) (note : String)
  | err (st : PState) (msg : String)
deriving Repr, DecidableEq

def OpResult.state : OpResult → PState
  | .ok st _ => st
  | .err st _ => st

def OpResult.isErr : OpResult → Bool
  | .ok _ _ => false
  | .err _ _ => true

/-- Outcome of `apply_decision_to_task`: on success it returns the
persisted state, the (in-memory) updated debate record, and the note
string the function returns. -/
inductive ApplyResult where
  | ok (st : PState) (debate : Debate) (note : String)
  | err (st : PState) (msg : String)
deriving Repr, DecidableEq

def isErrorE {ε α : Type} : Except ε α → Bool
  | .error _ => true
  | .ok _ => false

/-- `find_task` (the `suggest_closest` hint in the message is omitted). -/
def find_task (tasks : List TaskRec) (task_id : String) : Except String TaskRec :=
  match tasks.find? (fun t => t.id != "" && t.id == task_id) with
  | some t => .ok t
  | none => .error ("Task not found: " ++ task_id ++ ".")

/-- `find_debate`. -/
def find_debate (debates : List Debate) (debate_id : String) : Except String Debate :=
  match debates.find? (fun t => t.id != "" && t.id == debate_id) with
  | some t => .ok t
  | none => .error ("Debate not found: " ++ debate_id ++ ".")

/-- Replace the record `find_task` located (the source mutates the found
dict in place inside the loaded board, then writes the whole board). -/
def updateFirstTask : List TaskRec → String → TaskRec → List TaskRec
  | [], _, _ => []
  | t :: rest, task_id, t' =>
    if t.id != "" && t.id == task_id then t' :: rest
    else t :: updateFirstTask rest task_id t'

/-- Replace the record `find_debate` located. -/
def updateFirstDebate : List Debate → String → Debate → List Debate
  | [], _, _ => []
  | d :: rest, debate_id, d' =>
    if d.id != "" && d.id == debate_id then d' :: rest
    else d :: updateFirstDebate rest debate_id d'

def UNASSIGNED_OWNER : String := "unassigned"

/-- `validate_owner_map`. -/
def validate_owner_map (owner_map : List (String × String)) (options : List String)
    (allowed_owners : List String) : Except String Unit :=
  if owner_map.any (fun e => decide (e.1 ∉ options)) then
    .error "--owner-map has unknown option(s)."
  else if owner_map.any (fun e => decide (e.2 ∉ allowed_owners ∧ e.2 ≠ UNASSIGNED_OWNER)) then
    .error "--owner-map has owner(s) not in team members."
  else .ok ()

/-- `resolve_notify_sender`. -/
def resolve_notify_sender (teamMembers : List String)
    (requested_sender fallback_sender : String) (required : Bool) : Except String String :=
  if !required then .ok requested_sender
  else if requested_sender ∈ teamMembers then .ok requested_sender
  else if requested_sender = "lead" ∧ fallback_sender ∈ teamMembers then .ok fallback_sender
  else .error "--notify-from is not a registered member."

/-- `ensure_registered_member`. -/
def ensure_registered_member (teamMembers : List String) (member : String) :
    Except String Unit :=
  if member ∈ teamMembers then .ok ()
  else .error ("not a registered member: " ++ member)

/-- `ensure_registered_member_list`. -/
def ensure_registered_member_list (teamMembers : List String) (members : List String) :
    Except String Unit :=
  if members.any (fun m => decide (m ∉ teamMembers)) then
    .error "includes non-team member(s)."
  else .ok ()

/-- `owner_map.get(selected_option)`. -/
def lookupOwnerMap (owner_map : List (String × String)) (opt : String) : Option String :=
  (owner_map.find? (fun e => e.1 == opt)).map Prod.snd

/-- `bool(isinstance(debate.get("task_id"), str) and debate.get("task_id"))`. -/
def hasLinkedTask (d : Debate) : Bool :=
  match d.task_id with
  | some tid => tid != ""
  | none => false

/-- `sorted(set(...))` (Python string sort is code-point lexicographic,
as is `String.le`). -/
def sortedUnique (l : List String) : List String :=
  l.dedup.mergeSort (fun a b => decide (a ≤ b))

/-- `sorted(set(members) - set(latest))`: the debate members without a
standing position. -/
def missingMembers (members : List String) (latest : List Position) : List String :=
  sortedUnique (members.filter (fun m => !(latest.any (fun p => p.member == m))))

/-- `apply_decision_to_task`.  The effect order matters for the
error-handling claims: no-op guards → status validation → task lookup →
task-board `write_json` → broadcast `append_jsonl`; the debate record
mutation is in memory only (the caller persists the debate board
afterwards). -/
def apply_decision_to_task (env : Env) (now : String) (st : PState) (debate : Debate)
    (selected_option selected_status : String) (owner_map : List (String × String))
    (applied_by sender : String) : ApplyResult :=
  match debate.task_id with
  | none => .ok st debate "No task linked; skipped apply."
  | some task_id =>
    if task_id = "" then .ok st debate "No task linked; skipped apply."
    else if debate.applied.isSome then
      .ok st debate ("Decision already applied to " ++ task_id ++ "; skipped apply.")
    else if selected_status ∉ TASK_STATUSES then
      .err st "status must be one of: completed, in_progress, pending"
    else
      match find_task st.taskBoard task_id with
      | .error e => .err st e
      | .ok task =>
        let task1 :=
          match lookupOwnerMap owner_map selected_option with
          | some owner => if owner ≠ "" then { task with owner := owner } else task
          | none => task
        let rationale :=
          match debate.decision with
          | some dec => dec.rationale
          | none => ""
        let note_text :=
          if rationale ≠ "" then
            "Debate " ++ debate.id ++ " chose '" ++ selected_option ++ "'. Rationale: "
              ++ rationale
          else
            "Debate " ++ debate.id ++ " chose '" ++ selected_option ++ "'."
        let task2 : TaskRec :=
          { task1 with
              status := selected_status,
              notes := task1.notes ++ [⟨now, note_text⟩],
              updated_at := now }
        if !env.taskWriteOk then .err st "Unable to write JSON file (task board)."
        else
          let st1 := { st with taskBoard := updateFirstTask st.taskBoard task_id task2 }
          let debate1 : Debate :=
            { debate with
                status := "applied",
                applied := some ⟨now, applied_by, task_id, selected_status, task2.owner,
                  selected_option⟩,
                updated_at := now }
          if !env.msgAppendOk then .err st1 "Unable to append JSONL (messages)."
          else
            let st2 := { st1 with
              messages := st1.messages ++
                [⟨now, "broadcast", sender, "*",
                  "Debate " ++ debate.id ++ " decided '" ++ selected_option
                    ++ "' and applied to " ++ task_id ++ " (status=" ++ selected_status
                    ++ ", owner=" ++ task2.owner ++ ")."⟩] }
            .ok st2 debate1
              ("Applied decision to " ++ task_id ++ " (status=" ++ selected_status
                ++ ", owner=" ++ task2.owner ++ ")")

/-- The command-line arguments of `decide-debate` the core logic reads
(`""` models an omitted optional string argument; `owner_map` is the
parsed `--owner-map`). -/
structure DecideArgs where
  debate_id : String
  decider : String
  decision : String
  rationale : String
  require_all_positions : Bool
  apply : Bool
  status_on_apply : String
  owner_map : List (String × String)
  notify_from : String
deriving Repr, DecidableEq

/-- The validation prefix of `cmd_decide_debate` (shape checks, owner-map
validation, effective-decider resolution); returns the effective
decider. -/
def decide_validate (teamMembers : List String) (a : DecideArgs) (debate : Debate) :
    Except String String :=
  if debate.options.any (fun o => o == "") then
    .error "Debate options are corrupted: options must be non-empty strings."
  else if debate.members.any (fun m => m == "") then
    .error "Debate members are corrupted: members must be non-empty strings."
  else
    match (if a.apply ∧ hasLinkedTask debate then
             validate_owner_map a.owner_map debate.options teamMembers
           else .ok ()) with
    | .error e => .error e
    | .ok _ =>
      let effective :=
        if a.decider ≠ "" then a.decider
        else if debate.decider ≠ "" then debate.decider
        else "lead"
      match ensure_registered_member teamMembers effective with
      | .error e => .error e
      | .ok _ =>
        if effective ∉ debate.members then
          .error "--decider must be one of the registered debate members."
        else if debate.decider ≠ "" ∧ effective ≠ debate.decider then
          .error "--decider must match debate decider."
        else .ok effective

/-- The tail of `cmd_decide_debate`: the optional apply step, then the
single debate-board `write_json`. -/
def decide_finish (env : Env) (now : String) (teamMembers : List String) (a : DecideArgs)
    (st : PState) (debate1 : Debate) (selected effective_decider : String)
    (decision_recorded : Bool) : OpResult :=
  match (if a.apply then
           match resolve_notify_sender teamMembers a.notify_from effective_decider
               (hasLinkedTask debate1 && debate1.applied.isNone) with
           | .error e => ApplyResult.err st e
           | .ok notify_sender =>
             apply_decision_to_task env now st debate1 selected a.status_on_apply
               a.owner_map effective_decider notify_sender
         else ApplyResult.ok st debate1 "") with
  | .err stE msg => .err stE msg
  | .ok st2 debate2 _ =>
    if !env.debateWriteOk then .err st2 "Unable to write JSON file (debate board)."
    else
      .ok { st2 with debateBoard := updateFirstDebate st2.debateBoard a.debate_id debate2 }
        (if decision_recorded then
           "Decided " ++ a.debate_id ++ ": option='" ++ selected ++ "'"
         else
           "Applied existing decision for " ++ a.debate_id ++ ": option='" ++ selected ++ "'")

/-- `cmd_decide_debate` (monitoring disabled; `require_team` and the
board loads are modelled by `st`; `teamMembers` is
`load_team_members`). -/
def cmd_decide_debate (env : Env) (now : String) (teamMembers : List String)
    (a : DecideArgs) (st : PState) : OpResult :=
  match find_debate st.debateBoard a.debate_id with
  | .error e => .err st e
  | .ok debate =>
    if debate.status == "applied" then .ok st (a.debate_id ++ " is already applied.")
    else
      match decide_validate teamMembers a debate with
      | .error e => .err st e
      | .ok effective_decider =>
        if debate.status == "decided" then
          match debate.decision with
          | none =>
            .err st ("Debate " ++ a.debate_id
              ++ " is marked decided but has no valid decision payload.")
          | some existing =>
            if existing.option ∉ debate.options then
              .err st ("Debate " ++ a.debate_id
                ++ " has an invalid decided option; cannot proceed.")
            else if a.decision ≠ "" ∧ a.decision ≠ existing.option then
              .err st (a.debate_id ++ " is already decided as '" ++ existing.option ++ "'.")
            else if a.require_all_positions ∧
                missingMembers debate.members (latest_positions debate.positions) ≠ [] then
              .err st "Cannot apply decided debate yet; missing positions."
            else if !a.apply then
              .ok st (a.debate_id ++ " is already decided as '" ++ existing.option ++ "'.")
            else
              decide_finish env now teamMembers a st debate existing.option
                effective_decider false
        else
          if a.rationale = "" then
            .err st "--rationale is required when finalizing a new debate decision."
          else
            match (if a.decision ≠ "" then
                     (if a.decision ∈ debate.options then
                        Except.ok (a.decision, "manual",
                          debate.options.dedup.map (fun o => (o, (0 : ℚ))),
                          latest_positions debate.positions)
                      else Except.error "--decision must be one of the debate options.")
                   else choose_decision debate) with
            | .error e => .err st e
            | .ok (selected, method, scores, latest) =>
              if a.require_all_positions ∧ missingMembers debate.members latest ≠ [] then
                .err st "Cannot decide yet; missing positions."
              else
                let debate1 : Debate :=
                  { debate with
                      decision := some ⟨now, effective_decider, selected, method, scores,
                        a.rationale⟩,
                      status := "decided",
                      updated_at := now }
                decide_finish env now teamMembers a st debate1 selected effective_decider true

/-- `cmd_claim`: member registration check, completed-task guard, forced
owner/status, one task-board write. -/
def cmd_claim (env : Env) (now : String) (teamMembers : List String) (st : PState)
    (task_id member : String) : OpResult :=
  match ensure_registered_member teamMembers member with
  | .error e => .err st e
  | .ok _ =>
    match find_task st.taskBoard task_id with
    | .error e => .err st e
    | .ok task =>
      if task.status == "completed" then
        .err st ("Cannot claim completed task: " ++ task_id)
      else
        let task1 : TaskRec :=
          { task with owner := member, status := "in_progress", updated_at := now }
        if !env.taskWriteOk then .err st "Unable to write JSON file (task board)."
        else
          .ok { st with taskBoard := updateFirstTask st.taskBoard task_id task1 }
            (member ++ " claimed " ++ task_id)

/-- `create_debate`: normalization (`sorted(set(...))`), shape checks,
decider check, linked-task existence check, id assignment, append and
board write. -/
def create_debate (env : Env) (now : String) (st : PState) (topic : String)
    (task_id : Option String) (options members : List String) (decider : String) :
    Except (PState × String) (PState × Debate) :=
  let normalized_options := sortedUnique options
  let normalized_members := sortedUnique members
  let normalized_task_id :=
    match task_id with
    | some tid => if tid.trim = "" then none else some tid.trim
    | none => none
  if normalized_options.length < 2 then
    .error (st, "Debate requires at least two options.")
  else if normalized_members.length < 2 then
    .error (st, "Debate requires at least two members.")
  else if decider ∉ normalized_members then
    .error (st, "--decider must be one of the registered debate members.")
  else
    match (match normalized_task_id with
           | some tid => (find_task st.taskBoard tid).map (fun _ => ())
           | none => Except.ok ()) with
    | .error e => .error (st, e)
    | .ok _ =>
      let debate : Debate :=
        { id := "debate-" ++ toString st.debateNextId,
          topic := topic,
          task_id := normalized_task_id,
          options := normalized_options,
          members := normalized_members,
          decider := decider,
          status := "open",
          positions := [],
          decision := none,
          applied := none,
          created_at := now,
          updated_at := now }
      if !env.debateWriteOk then .error (st, "Unable to write JSON file (debate board).")
      else
        .ok ({ st with
                debateBoard := st.debateBoard ++ [debate],
                debateNextId := st.debateNextId + 1 }, debate)

/-- `ensure_new_debate_shape`. -/
def ensure_new_debate_shape (options members : List String) : Except String Unit :=
  if options.dedup.length < 2 then
    .error "--options must include at least two unique values."
  else if members.dedup.length < 2 then
    .error "--members must include at least two unique registered members."
  else .ok ()

/-- `resolve_new_debate_decider` (the fail-soft `lead` fallback picks the
first debate member). -/
def resolve_new_debate_decider (teamMembers : List String) (requested_decider : String)
    (debate_members : List String) : Except String String :=
  if requested_decider ∈ teamMembers ∧ requested_decider ∈ debate_members then
    .ok requested_decider
  else if requested_decider = "lead" ∧ "lead" ∉ teamMembers ∧ debate_members ≠ [] ∧
      debate_members.headD "" ∈ teamMembers then
    .ok (debate_members.headD "")
  else if requested_decider ∉ teamMembers then
    .error "decider is not a registered member of the team."
  else .error "decider must be one of debate members."

/-- The command-line arguments of `orchestrate-debate` the core logic
reads (`debate_id = ""` models the create mode). -/
structure OrchArgs where
  debate_id : String
  topic : String
  task_id : Option String
  options : List String
  members : List String
  decider : String
  status_on_apply : String
  owner_map : List (String × String)
  auto_rationale : String
  send_reminders : Bool
  notify_from : String
deriving Repr, DecidableEq

/-- The decision-option check, owner-map validation, apply step, and
final debate-board write of `cmd_orchestrate_debate` (its lines after the
auto-decide block), entered with the possibly-just-decided `debate1` and
its decision record. -/
def orchestrate_finish (env : Env) (now : String) (teamMembers : List String) (a : OrchArgs)
    (st : PState) (debate1 : Debate) (dec : DecisionRec) (effective_decider : String) :
    OpResult :=
  if dec.option ∉ debate1.options then
    .err st (debate1.id ++ " has invalid decision option.")
  else
    match (if hasLinkedTask debate1 then
             validate_owner_map a.owner_map debate1.options teamMembers
           else Except.ok ()) with
    | .error e => .err st e
    | .ok _ =>
      match resolve_notify_sender teamMembers a.notify_from effective_decider
          (hasLinkedTask debate1 && debate1.applied.isNone) with
      | .error e => .err st e
      | .ok notify_sender =>
        match apply_decision_to_task env now st debate1 dec.option
            a.status_on_apply a.owner_map effective_decider notify_sender with
        | .err stE msg => .err stE msg
        | .ok st2 debate2 _ =>
          if !env.debateWriteOk then
            .err st2 "Unable to write JSON file (debate board)."
          else
            .ok { st2 with
                debateBoard := updateFirstDebate st2.debateBoard debate1.id debate2 }
              (debate1.id ++ " orchestrated: option='" ++ dec.option ++ "'")

/-- The post-creation body of `cmd_orchestrate_debate`: already-applied
guard, decider resolution, reminder/waiting path, auto-decide, then
`orchestrate_finish`. -/
def orchestrate_step (env : Env) (now : String) (teamMembers : List String) (a : OrchArgs)
    (st : PState) (debate : Debate) : OpResult :=
  if debate.status == "applied" then
    .ok st (debate.id ++ " already applied. Nothing to do.")
  else if debate.members.any (fun m => m == "") then
    .err st "Debate members are corrupted: members must be non-empty strings."
  else if debate.options.any (fun o => o == "") then
    .err st "Debate options are corrupted: options must be non-empty strings."
  else
    let effective_decider :=
      if debate.decider ≠ "" then debate.decider
      else if a.decider ≠ "" then a.decider
      else "lead"
    if effective_decider ∉ debate.members then
      .err st ("Debate " ++ debate.id ++ " decider '" ++ effective_decider
        ++ "' is not a registered member.")
    else
      match ensure_registered_member teamMembers effective_decider with
      | .error e => .err st e
      | .ok _ =>
        let missing := missingMembers debate.members (latest_positions debate.positions)
        if missing ≠ [] then
          (if a.send_reminders then
             match resolve_notify_sender teamMembers a.notify_from effective_decider true with
             | .error e => .err st e
             | .ok notify_sender =>
               if !env.msgAppendOk then .err st "Unable to append JSONL (messages)."
               else
                 .ok { st with
                     messages := st.messages ++ missing.map (fun member =>
                       ⟨now, "direct", notify_sender, member,
                         "Debate " ++ debate.id ++ " is waiting for your position."⟩) }
                   (debate.id ++ " waiting for positions")
           else .ok st (debate.id ++ " waiting for positions"))
        else
          match debate.decision with
          | some dec => orchestrate_finish env now teamMembers a st debate dec effective_decider
          | none =>
            match choose_decision debate with
            | .error e => .err st e
            | .ok (selected, method, scores, _) =>
              orchestrate_finish env now teamMembers a st
                { debate with
                    decision := some ⟨now, effective_decider, selected, method,
                      scores, a.auto_rationale⟩,
                    status := "decided",
                    updated_at := now }
                ⟨now, effective_decider, selected, method, scores, a.auto_rationale⟩
                effective_decider

/-- `cmd_orchestrate_debate`: find or create the debate, then run one
orchestration step. -/
def cmd_orchestrate_debate (env : Env) (now : String) (teamMembers : List String)
    (a : OrchArgs) (st : PState) : OpResult :=
  if a.debate_id ≠ "" then
    match find_debate st.debateBoard a.debate_id with
    | .error e => .err st e
    | .ok debate => orchestrate_step env now teamMembers a st debate
  else
    match ensure_registered_member_list teamMembers a.members with
    | .error e => .err st e
    | .ok _ =>
      match ensure_new_debate_shape a.options a.members with
      | .error e => .err st e
      | .ok _ =>
        match resolve_new_debate_decider teamMembers
            (if a.decider ≠ "" then a.decider else "lead") a.members with
        | .error e => .err st e
        | .ok decider =>
          match create_debate env now st a.topic a.task_id a.options a.members decider with
          | .error (stE, e) => .err stE e
          | .ok (st1, debate) => orchestrate_step env now teamMembers a st1 debate

/-! ## Board loading: next-id normalization -/

/-- The numeric suffix of an id of the form `<pfx><digits>` (the
`startswith`/`removeprefix`/`isdigit` checks of the board loaders). -/
def parseIdSuffix (pfx id : String) : Option Nat :=
  if id.startsWith pfx then
    let suffix := id.drop pfx.length
    if suffix.isNat then suffix.toNat? else none
  else none

/-- The `max_id` loop of `load_task_board` / `load_debate_board`. -/
def maxExistingId (pfx : String) (ids : List String) : Nat :=
  ids.foldl (fun mx id =>
    match parseIdSuffix pfx id with
    | some n => max mx n
    | none => mx) 0

/-- `next_id = max_id + 1 if max_id else 1`. -/
def reconstructNextId (pfx : String) (ids : List String) : Int :=
  let mx := maxExistingId pfx ids
  if mx ≠ 0 then (mx : Int) + 1 else 1

/-- The `next_id` normalization in `load_task_board` /
`load_debate_board`: `stored = none` models an absent or non-integer
stored counter; a stored integer `< 1` is also rebuilt. -/
def load_board_next_id (pfx : String) (stored : Option Int) (ids : List String) : Int :=
  match stored with
  | some n => if n ≥ 1 then n else reconstructNextId pfx ids
  | none => reconstructNextId pfx ids

/-! ## Lock model -/

/-- Outcome of the `os.kill(pid, 0)` liveness probe. -/
inductive ProbeResult where
  | ok
  | lookupError
  | permissionError
  | otherError
deriving Repr, DecidableEq

/-- `process_is_running`: a permission-denied probe conservatively counts
as running; a missing pid or any other probe failure counts as not
running. -/
def process_is_running (pid : Option Int) (probe : Int → ProbeResult) : Bool :=
  match pid with
  | none => false
  | some p =>
    match probe p with
    | .lookupError => false
    | .permissionError => true
    | .otherError => false
    | .ok => true

/-- A `stat` result for the lock marker: modification time plus the
inode/device identity. -/
structure StatInfo where
  st_mtime : ℚ
  st_ino : Nat
  st_dev : Nat
deriving Repr, DecidableEq

/-- `reclaim_stale_lock`.  `observed`/`current` are the results of the
two `stat` calls (`none` models `OSError`), `lock_pid` is
`read_lock_pid`'s result, `probe` the liveness probe, `unlink_ok` whether
the final `unlink` succeeds.  Returns `true` exactly when the marker was
removed. -/
def reclaim_stale_lock (now stale_seconds : ℚ) (observed : Option StatInfo)
    (lock_pid : Option Int) (probe : Int → ProbeResult) (current : Option StatInfo)
    (unlink_ok : Bool) : Bool :=
  match observed with
  | none => false
  | some obs =>
    if now - obs.st_mtime ≤ stale_seconds then false
    else if process_is_running lock_pid probe then false
    else
      match current with
      | none => false
      | some cur =>
        if cur.st_ino ≠ obs.st_ino ∨ cur.st_dev ≠ obs.st_dev then false
        else if unlink_ok then true else false

/-- Forward rank of a debate status in the `open → decided → applied`
state machine. -/
def statusRank (status : String) : Nat :=
  if status == "decided" then 1 else if status == "applied" then 2 else 0

/-- The state of `apply_decision_to_task`'s outcome. -/
def ApplyResult.state : ApplyResult → PState
  | .ok st _ _ => st
  | .err st _ => st

/-- The status a debate id has on a board (empty when absent). -/
def debateStatusIn (st : PState) (debate_id : String) : String :=
  match find_debate st.debateBoard debate_id with
  | .ok d => d.status
  | .error _ => ""

/-! ## Concrete fixtures for witnesses and counterexamples -/

def mkPos (mem opt : String) (c : ℚ) : Position := ⟨"t0", mem, opt, some c, "why"⟩

def c1Debate : Debate :=
  ⟨"debate-1", "topic", none, ["fast", "safe"], ["a", "b", "c"], "a", "open",
    [mkPos "a" "fast" (6/10), mkPos "b" "safe" (6/10), mkPos "c" "fast" 0],
    none, none, "t0", "t0"⟩

def c8DebateZero : Debate :=
  ⟨"debate-1", "t", none, ["x", "y"], ["a", "b"], "a", "open",
    [mkPos "a" "x" 0], none, none, "t0", "t0"⟩

def c8DebateEmpty : Debate :=
  ⟨"debate-2", "t", none, ["x", "y"], ["a", "b"], "a", "open",
    [], none, none, "t0", "t0"⟩

def c4Task : TaskRec := ⟨"task-1", "Ship it", "a", "in_progress", [], [], "t0", "t0"⟩

def c4Decision : DecisionRec := ⟨"t0", "a", "x", "score", [("x", 1), ("y", 0)], "r"⟩

def c4Applied : AppliedRec := ⟨"t0", "a", "task-1", "in_progress", "a", "x"⟩

def c4Debate : Debate :=
  ⟨"debate-1", "t", some "task-1", ["x", "y"], ["a", "b"], "a", "applied",
    [], some c4Decision, some c4Applied, "t0", "t0"⟩

def c4State : PState := ⟨[c4Task], 2, [c4Debate], 2, []⟩

def c9Task : TaskRec := ⟨"task-1", "Do", "unassigned", "pending", [], [], "t0", "t0"⟩

def c9TaskDone : TaskRec := ⟨"task-2", "Done", "a", "completed", [], [], "t0", "t0"⟩

def c9State : PState := ⟨[c9Task, c9TaskDone], 3, [], 1, []⟩

def c10State : PState := ⟨[], 1, [], 1, []⟩

def c3Task : TaskRec := ⟨"task-1", "Do", "unassigned", "pending", [], [], "t0", "t0"⟩

def c3Debate : Debate :=
  ⟨"debate-1", "topic", some "task-1", ["x", "y"], ["a", "b"], "a", "open",
    [mkPos "a" "x" 1, mkPos "b" "x" 1], none, none, "t0", "t0"⟩

def c3State : PState := ⟨[c3Task], 2, [c3Debate], 2, []⟩

def c3Args : DecideArgs :=
  ⟨"debate-1", "", "", "why", false, true, "in_progress", [], "lead"⟩

/-- The broadcast `append_jsonl` fails; both board writes would
succeed. -/
def c3Env : Env := ⟨true, false, true⟩

def c3Result : OpResult := cmd_decide_debate c3Env "t1" ["a", "b"] c3Args c3State

def c5Decision : DecisionRec := ⟨"t0", "a", "x", "score", [("x", 2), ("y", 0)], "r"⟩

def c5Debate : Debate :=
  ⟨"debate-1", "topic", none, ["x", "y"], ["a", "b"], "a", "decided",
    [mkPos "a" "x" 1, mkPos "b" "x" 1], some c5Decision, none, "t0", "t0"⟩

def c5State : PState := ⟨[], 1, [c5Debate], 2, []⟩

def c5ArgsNoConflict : DecideArgs :=
  ⟨"debate-1", "", "", "", false, false, "in_progress", [], "lead"⟩

def c5ArgsConflict : DecideArgs :=
  ⟨"debate-1", "", "y", "", false, false, "in_progress", [], "lead"⟩

def c2Task : TaskRec := ⟨"task-1", "Do", "unassigned", "pending", [], [], "t0", "t0"⟩

def c2Debate : Debate :=
  ⟨"debate-1", "topic", some "task-1", ["x", "y"], ["a", "b"], "a", "open",
    [mkPos "a" "x" 1, mkPos "b" "y" 0], none, none, "t0", "t0"⟩

def c2State : PState := ⟨[c2Task], 2, [c2Debate], 2, []⟩

def c2Args : OrchArgs :=
  ⟨"debate-1", "", none, [], [], "lead", "in_progress", [], "auto", false, "lead"⟩

def c2Result : OpResult := cmd_orchestrate_debate allOk "t1" ["a", "b"] c2Args c2State

def c2WDebate : Debate :=
  ⟨"debate-9", "topic", none, ["x", "y"], ["a", "b"], "a", "open",
    [mkPos "a" "x" 1], none, none, "t0", "t0"⟩

def c2WState : PState := ⟨[], 1, [c2WDebate], 10, []⟩

def c2WArgs : OrchArgs :=
  ⟨"debate-9", "", none, [], [], "lead", "in_progress", [], "auto", false, "lead"⟩

def c10Debate : Debate :=
  ⟨"debate-1", "topic", none, ["a", "b"], ["m1", "m2"], "m1", "open",
    [], none, none, "t1", "t1"⟩

def c10StateAfter : PState := ⟨[], 1, [c10Debate], 2, []⟩

def c7Probe : Int → ProbeResult := fun _ => ProbeResult.lookupError

def c7ProbeDenied : Int → ProbeResult := fun _ => ProbeResult.permissionError

def c7Stat : StatInfo := ⟨350, 7, 1⟩

/-! ## Lemmas about the scoring fold -/

lemma sumConf_nil (o : String) : sumConf [] o = 0 := rfl

lemma sumConf_cons (p : Position) (l : List Position) (o : String) :
    sumConf (p :: l) o =
      if p.option = o then confidenceValue p.confidence + sumConf l o else sumConf l o := by
  by_cases h : p.option = o
  · simp [sumConf, List.filter_cons, h]
  · simp [sumConf, List.filter_cons, h]

lemma addScore_map (optionSet : List String) (f : String → ℚ) (opt : String) (c : ℚ) :
    addScore (optionSet.map (fun o => (o, f o))) opt c
      = optionSet.map (fun o => (o, if o = opt then f o + c else f o)) := by
  simp only [addScore, List.map_map]
  refine List.map_congr_left (fun o _ => ?_)
  by_cases h : o = opt <;> simp [h]

lemma computeScores_aux (optionSet : List String) :
    ∀ (latest : List Position) (f : String → ℚ),
      latest.foldl
        (fun scores p =>
          if p.option ∈ optionSet then
            addScore scores p.option (confidenceValue p.confidence)
          else scores)
        (optionSet.map (fun o => (o, f o)))
      = optionSet.map (fun o => (o, f o + sumConf latest o))
  | [], f => by
      simp [sumConf_nil]
  | p :: ps, f => by
      by_cases hmem : p.option ∈ optionSet
      · rw [List.foldl_cons, if_pos hmem, addScore_map,
          computeScores_aux optionSet ps
            (fun o => if o = p.option then f o + confidenceValue p.confidence else f o)]
        refine List.map_congr_left (fun o _ => ?_)
        by_cases ho : o = p.option
        · subst ho
          simp [sumConf_cons, add_assoc]
        · have : p.option ≠ o := fun h => ho h.symm
          simp [sumConf_cons, ho, this]
      · rw [List.foldl_cons, if_neg hmem,
          computeScores_aux optionSet ps f]
        refine List.map_congr_left (fun o ho => ?_)
        have : p.option ≠ o := fun h => hmem (h ▸ ho)
        simp [sumConf_cons, this]

lemma computeScores_eq (optionSet : List String) (latest : List Position) :
    computeScores optionSet latest
      = optionSet.map (fun o => (o, sumConf latest o)) := by
  have h0 : (optionSet.map (fun o => ((o : String), (0 : ℚ))))
      = optionSet.map (fun o => (o, (fun _ : String => (0 : ℚ)) o)) := rfl
  rw [computeScores, h0, computeScores_aux]
  refine List.map_congr_left (fun o _ => ?_)
  simp

/-! ## Lemmas about `latest_positions` -/

lemma find?_map_replace (p : Position) :
    ∀ (l : List Position), l.any (fun q => q.member == p.member) = true →
      (l.map (fun q => if q.member == p.member then p else q)).find?
          (fun q => q.member == p.member) = some p
  | [], h => by simp at h
  | a :: l, h => by
      by_cases ha : a.member = p.member
      · simp [List.find?_cons, ha]
      · have h' : l.any (fun q => q.member == p.member) = true := by
          simpa [ha] using h
        simpa [List.find?_cons, ha] using find?_map_replace p l h'

lemma find?_map_replace_other (p : Position) (m : String) (hm : m ≠ p.member) :
    ∀ (l : List Position),
      (l.map (fun q => if q.member == p.member then p else q)).find?
          (fun q => q.member == m)
        = l.find? (fun q => q.member == m)
  | [] => rfl
  | a :: l => by
      by_cases ha : a.member = p.member
      · have hp : ¬ (p.member = m) := fun h => hm (h.symm)
        have haM : ¬ (a.member = m) := fun h => hm (by rw [← h, ha])
        simpa [List.find?_cons, ha, hp, haM] using find?_map_replace_other p m hm l
      · by_cases haM : a.member = m
        · simp [List.find?_cons, ha, haM, hm]
        · simpa [List.find?_cons, ha, haM] using find?_map_replace_other p m hm l

lemma find?_insertLatest_self (acc : List Position) (p : Position) :
    (insertLatest acc p).find? (fun q => q.member == p.member) = some p := by
  by_cases h : acc.any (fun q => q.member == p.member) = true
  · rw [insertLatest, if_pos h]
    exact find?_map_replace p acc h
  · rw [insertLatest, if_neg h]
    have hnone : acc.find? (fun q => q.member == p.member) = none := by
      rw [List.find?_eq_none]
      intro x hx hpx
      exact h (List.any_eq_true.mpr ⟨x, hx, hpx⟩)
    rw [List.find?_append, hnone]
    simp [List.find?_cons]

lemma find?_insertLatest_other (acc : List Position) (p : Position) (m : String)
    (hm : m ≠ p.member) :
    (insertLatest acc p).find? (fun q => q.member == m)
      = acc.find? (fun q => q.member == m) := by
  by_cases h : acc.any (fun q => q.member == p.member) = true
  · rw [insertLatest, if_pos h]
    exact find?_map_replace_other p m hm acc
  · rw [insertLatest, if_neg h, List.find?_append]
    have hp : ¬ (p.member = m) := fun h' => hm h'.symm
    cases hacc : acc.find? (fun q => q.member == m) <;> simp [List.find?_cons, hp]

lemma latest_positions_foldl_find? (m : String) (hm : m ≠ "") :
    ∀ (ps : List Position) (acc : List Position),
      (ps.foldl (fun acc p => if p.member == "" then acc else insertLatest acc p) acc).find?
          (fun q => q.member == m)
        = ((ps.reverse.find? (fun p => p.member == m)).or
            (acc.find? (fun q => q.member == m)))
  | [], acc => by simp
  | p :: ps, acc => by
      rw [List.foldl_cons, latest_positions_foldl_find? m hm ps _, List.reverse_cons,
        List.find?_append]
      by_cases hp : p.member = ""
      · have hm' : ¬ ("" = m) := fun h => hm h.symm
        simp [hp, List.find?_cons, hm', Option.or_assoc]
      · by_cases hpm : p.member = m
        · have : m ≠ p.member → False := fun h => h hpm.symm
          rw [if_neg (by simp [hp])]
          rcases hfind : ps.reverse.find? (fun q => q.member == m) with _ | q
          · simp [hfind, List.find?_cons, hpm, find?_insertLatest_self,
              hpm ▸ find?_insertLatest_self acc p]
          · simp [hfind]
        · rw [if_neg (by simp [hp]), find?_insertLatest_other acc p m (fun h => hpm h.symm)]
          simp [List.find?_cons, hpm, Option.or_assoc]

lemma latest_positions_find? (ps : List Position) (m : String) (hm : m ≠ "") :
    (latest_positions ps).find? (fun q => q.member == m)
      = ps.reverse.find? (fun p => p.member == m) := by
  rw [latest_positions, latest_positions_foldl_find? m hm ps []]
  simp

/-! ## Lemmas about the maximum and the tie set -/

lemma max?_rat_spec (l : List ℚ) (h : l ≠ []) :
    ∃ M, l.max? = some M ∧ M ∈ l ∧ ∀ b ∈ l, b ≤ M := by
  haveI : Std.Antisymm (fun (a b : ℚ) => a ≤ b) := ⟨by
    intro a b hab hba
    exact le_antisymm hab hba⟩
  cases hmax : l.max? with
  | none => exact absurd (List.max?_eq_none_iff.mp hmax) h
  | some M =>
    have hiff : l.max? = some M ↔ M ∈ l ∧ ∀ b ∈ l, b ≤ M :=
      List.max?_eq_some_iff (fun a => le_refl a)
        (fun a b => max_choice a b) (fun a b c => max_le_iff)
    exact ⟨M, rfl, (hiff.mp hmax).1, (hiff.mp hmax).2⟩

lemma engineScores_eq (d : Debate) :
    engineScores d = d.options.dedup.map (fun o => (o, specScore d.positions o)) := by
  rw [engineScores, computeScores_eq]
  rfl

lemma engineMax_spec (d : Debate) (hne : d.options.dedup ≠ []) :
    (∃ o ∈ d.options.dedup, specScore d.positions o = engineMax d)
    ∧ ∀ o ∈ d.options.dedup, specScore d.positions o ≤ engineMax d := by
  have hmap : (engineScores d).map Prod.snd
      = d.options.dedup.map (fun o => specScore d.positions o) := by
    rw [engineScores_eq, List.map_map]
    rfl
  have hnil : (engineScores d).map Prod.snd ≠ [] := by
    rw [hmap]
    simpa using hne
  obtain ⟨M, hM, hmem, hub⟩ := max?_rat_spec _ hnil
  have hMax : engineMax d = M := by rw [engineMax, hM]; rfl
  constructor
  · rw [hmap] at hmem
    obtain ⟨o, ho, hgo⟩ := List.mem_map.mp hmem
    exact ⟨o, ho, by rw [hgo, hMax]⟩
  · intro o ho
    rw [hMax]
    exact hub _ (by rw [hmap]; exact List.mem_map_of_mem _ ho)

lemma winners_unsorted_eq (d : Debate) (hne : d.options.dedup ≠ []) :
    ((engineScores d).filter (fun s => s.2 == engineMax d)).map Prod.fst
      = tiedWinners d := by
  obtain ⟨hmem, hub⟩ := engineMax_spec d hne
  rw [engineScores_eq, List.filter_map, List.map_map]
  have hcomp : ((fun s : String × ℚ => s.2 == engineMax d) ∘
      (fun o => (o, specScore d.positions o)))
      = fun o => specScore d.positions o == engineMax d := rfl
  rw [hcomp]
  have hid : (Prod.fst ∘ (fun o : String => (o, specScore d.positions o)))
      = fun o : String => o := rfl
  rw [hid, List.map_id', tiedWinners]
  refine List.filter_congr (fun o ho => ?_)
  by_cases h : specScore d.positions o = engineMax d
  · simp only [h]
    rw [decide_eq_true hub]
    simp
  · have hno : ¬ (∀ o' ∈ d.options.dedup,
        specScore d.positions o' ≤ specScore d.positions o) := by
      obtain ⟨o₀, ho₀, hg₀⟩ := hmem
      intro hall
      exact h (le_antisymm (hub o ho) (hg₀ ▸ hall o₀ ho₀))
    rw [decide_eq_false hno]
    simp [h]

lemma engineWinners_perm (d : Debate) (hne : d.options.dedup ≠ []) :
    (engineWinners d).Perm (tiedWinners d) := by
  rw [engineWinners]
  refine List.Perm.trans (List.mergeSort_perm _ _) ?_
  rw [winners_unsorted_eq d hne]

lemma engineWinners_sorted (d : Debate) :
    List.Pairwise (fun a b : String => a ≤ b) (engineWinners d) := by
  have htrans : ∀ a b c : String,
      (decide (a ≤ b)) = true → (decide (b ≤ c)) = true → (decide (a ≤ c)) = true := by
    intro a b c hab hbc
    exact decide_eq_true (le_trans (of_decide_eq_true hab) (of_decide_eq_true hbc))
  have htotal : ∀ a b : String, ((decide (a ≤ b)) || (decide (b ≤ a))) = true := by
    intro a b
    rcases le_total a b with h | h
    · rw [decide_eq_true h]
      simp
    · rw [decide_eq_true h]
      simp
  have := List.sorted_mergeSort htrans htotal
    (((engineScores d).filter (fun s => s.2 == engineMax d)).map Prod.fst)
  exact this.imp (fun h => of_decide_eq_true h)

lemma mem_tiedWinners_iff (d : Debate) (hne : d.options.dedup ≠ []) (o : String) :
    o ∈ tiedWinners d ↔
      o ∈ d.options.dedup ∧ specScore d.positions o = engineMax d := by
  rw [tiedWinners, List.mem_filter]
  obtain ⟨⟨o₀, ho₀, ho₀max⟩, hub⟩ := engineMax_spec d hne
  constructor
  · rintro ⟨ho, hdec⟩
    have hall := of_decide_eq_true hdec
    exact ⟨ho, le_antisymm (hub o ho) (ho₀max ▸ hall o₀ ho₀)⟩
  · rintro ⟨ho, hmax⟩
    exact ⟨ho, decide_eq_true (fun o' ho' => hmax ▸ hub o' ho')⟩

/-! ## C1 -/

/-- **C1**: automatic decision computation is deterministic and follows
the documented policy.  Whenever `choose_decision` succeeds: the
authoritative positions are each member's latest (last in append order);
the reported score of every option is the sum of the (default-`1.0` when
non-numeric) confidences of the latest positions choosing it; a strict
maximum wins with method `score`; on a tie the decider's latest-voted
option wins with method `tie_decider` when it is among the tied winners,
and otherwise the lexicographically smallest tied option wins with method
`tie_lexical`; recomputation yields the identical tuple. -/
theorem C1_automatic_decision_characterization
    (d : Debate) (w method : String) (s : List (String × ℚ)) (latest : List Position)
    (hok : choose_decision d = .ok (w, method, s, latest)) :
    latest = latest_positions d.positions
    ∧ (∀ mName : String, mName ≠ "" →
        latest.find? (fun p => p.member == mName)
          = d.positions.reverse.find? (fun p => p.member == mName))
    ∧ s = d.options.dedup.map (fun o => (o, specScore d.positions o))
    ∧ ((method = "score" ∧ w ∈ d.options.dedup ∧
          ∀ o ∈ d.options.dedup, o ≠ w →
            specScore d.positions o < specScore d.positions w)
       ∨ (method = "tie_decider" ∧ 2 ≤ (tiedWinners d).length ∧
            deciderLatestPick d = some w ∧ w ∈ tiedWinners d)
       ∨ (method = "tie_lexical" ∧ 2 ≤ (tiedWinners d).length ∧
            w ∈ tiedWinners d ∧ (∀ o ∈ tiedWinners d, w ≤ o) ∧
            (∀ pick, deciderLatestPick d = some pick → pick ∉ tiedWinners d)))
    ∧ choose_decision d = choose_decision d := by
  unfold choose_decision at hok
  split at hok
  next => exact Except.noConfusion hok
  next hcorrupt =>
  split at hok
  next => exact Except.noConfusion hok
  next hneb =>
  split at hok
  next => exact Except.noConfusion hok
  next hlatne =>
  split at hok
  next => exact Except.noConfusion hok
  next hzero =>
  have hne : d.options.dedup ≠ [] := by
    intro hnil
    exact hneb (by simp [hnil])
  obtain ⟨⟨o₀, ho₀, ho₀max⟩, hub⟩ := engineMax_spec d hne
  have hscores := engineScores_eq d
  have hperm := engineWinners_perm d hne
  have htlen : (engineWinners d).length = (tiedWinners d).length := hperm.length_eq
  have htmem : ∀ o, o ∈ engineWinners d ↔ o ∈ tiedWinners d := fun o => hperm.mem_iff
  split at hok
  next => exact Except.noConfusion hok
  next w' rest heq =>
  split at hok
  next hrest =>
    -- a unique winner: method `score`
    have hrestnil : rest = [] := by
      cases rest with
      | nil => rfl
      | cons a l => simp at hrest
    subst hrestnil
    simp only [Except.ok.injEq, Prod.mk.injEq] at hok
    obtain ⟨hw, hmeth, hs, hlatest⟩ := hok
    subst hw hmeth hs hlatest
    have hTied : tiedWinners d = [w'] := by
      rw [heq] at hperm
      exact (List.perm_singleton.mp hperm.symm)
    have hwT : w' ∈ tiedWinners d := by
      rw [hTied]
      exact List.mem_singleton_self w'
    refine ⟨rfl, fun mName hm => latest_positions_find? d.positions mName hm, hscores,
      Or.inl ⟨rfl, ((mem_tiedWinners_iff d hne w').mp hwT).1, ?_⟩, rfl⟩
    intro o ho how
    have hwmax := ((mem_tiedWinners_iff d hne w').mp hwT).2
    rcases lt_or_eq_of_le (hub o ho) with hlt | heqo
    · rw [hwmax]
      exact hlt
    · exfalso
      have hoT : o ∈ tiedWinners d := (mem_tiedWinners_iff d hne o).mpr ⟨ho, heqo⟩
      rw [hTied] at hoT
      exact how (List.mem_singleton.mp hoT)
  next hrest =>
    have hrne : rest ≠ [] := by
      intro h
      rw [h] at hrest
      simp at hrest
    have hlen2 : 2 ≤ (tiedWinners d).length := by
      rw [← htlen, heq, List.length_cons]
      have := List.length_pos.mpr hrne
      omega
    split at hok
    next p hfind =>
      split at hok
      next hp =>
        -- tie broken by the decider's vote
        simp only [Except.ok.injEq, Prod.mk.injEq] at hok
        obtain ⟨hw, hmeth, hs, hlatest⟩ := hok
        subst hw hmeth hs hlatest
        refine ⟨rfl, fun mName hm => latest_positions_find? d.positions mName hm, hscores,
          Or.inr (Or.inl ⟨rfl, hlen2, ?_, (htmem _).mp hp⟩), rfl⟩
        rw [deciderLatestPick, hfind]
        rfl
      next hp =>
        -- decider voted outside the tie: lexicographically smallest wins
        simp only [Except.ok.injEq, Prod.mk.injEq] at hok
        obtain ⟨hw, hmeth, hs, hlatest⟩ := hok
        subst hw hmeth hs hlatest
        have hwE : w' ∈ engineWinners d := by
          rw [heq]
          exact List.mem_cons_self w' rest
        have hsorted := engineWinners_sorted d
        rw [heq] at hsorted
        have hhead := (List.pairwise_cons.mp hsorted).1
        refine ⟨rfl, fun mName hm => latest_positions_find? d.positions mName hm, hscores,
          Or.inr (Or.inr ⟨rfl, hlen2, (htmem _).mp hwE, ?_, ?_⟩), rfl⟩
        · intro o hoW
          have hoE : o ∈ engineWinners d := (htmem o).mpr hoW
          rw [heq] at hoE
          rcases List.mem_cons.mp hoE with h | h
          · rw [h]
          · exact hhead o h
        · intro pick hpick
          rw [deciderLatestPick, hfind] at hpick
          simp only [Option.map_some', Option.some.injEq] at hpick
          subst hpick
          intro hmem'
          exact hp ((htmem _).mpr hmem')
    next hfind =>
      -- the decider has no standing position: lexicographically smallest wins
      simp only [Except.ok.injEq, Prod.mk.injEq] at hok
      obtain ⟨hw, hmeth, hs, hlatest⟩ := hok
      subst hw hmeth hs hlatest
      have hwE : w' ∈ engineWinners d := by
        rw [heq]
        exact List.mem_cons_self w' rest
      have hsorted := engineWinners_sorted d
      rw [heq] at hsorted
      have hhead := (List.pairwise_cons.mp hsorted).1
      refine ⟨rfl, fun mName hm => latest_positions_find? d.positions mName hm, hscores,
        Or.inr (Or.inr ⟨rfl, hlen2, (htmem _).mp hwE, ?_, ?_⟩), rfl⟩
      · intro o hoW
        have hoE : o ∈ engineWinners d := (htmem o).mpr hoW
        rw [heq] at hoE
        rcases List.mem_cons.mp hoE with h | h
        · rw [h]
        · exact hhead o h
      · intro pick hpick
        rw [deciderLatestPick, hfind] at hpick
        exact Option.noConfusion hpick

/-- Witness for C1: the specification's worked example — options
`{fast, safe}`, positions `a→fast@0.6`, `b→safe@0.6`, `c→fast@0.0`,
decider `a`; tie at `0.6` broken by the decider's vote
(`tie_decider`, `fast`). -/
theorem C1_witness :
    choose_decision c1Debate
      = .ok ("fast", "tie_decider", [("fast", 3/5), ("safe", 3/5)],
          latest_positions c1Debate.positions)
    ∧ (latest_positions c1Debate.positions = latest_positions c1Debate.positions
       ∧ (∀ mName : String, mName ≠ "" →
           (latest_positions c1Debate.positions).find? (fun p => p.member == mName)
             = c1Debate.positions.reverse.find? (fun p => p.member == mName))
       ∧ [("fast", 3/5), ("safe", 3/5)]
           = c1Debate.options.dedup.map (fun o => (o, specScore c1Debate.positions o))
       ∧ (("tie_decider" = "score" ∧ "fast" ∈ c1Debate.options.dedup ∧
             ∀ o ∈ c1Debate.options.dedup, o ≠ "fast" →
               specScore c1Debate.positions o < specScore c1Debate.positions "fast")
          ∨ ("tie_decider" = "tie_decider" ∧ 2 ≤ (tiedWinners c1Debate).length ∧
               deciderLatestPick c1Debate = some "fast" ∧ "fast" ∈ tiedWinners c1Debate)
          ∨ ("tie_decider" = "tie_lexical" ∧ 2 ≤ (tiedWinners c1Debate).length ∧
               "fast" ∈ tiedWinners c1Debate ∧ (∀ o ∈ tiedWinners c1Debate, "fast" ≤ o) ∧
               (∀ pick, deciderLatestPick c1Debate = some pick →
                 pick ∉ tiedWinners c1Debate)))
       ∧ choose_decision c1Debate = choose_decision c1Debate) :=
  ⟨by with_unfolding_all rfl,
   C1_automatic_decision_characterization c1Debate "fast" "tie_decider"
     [("fast", 3/5), ("safe", 3/5)] (latest_positions c1Debate.positions)
     (by with_unfolding_all rfl)⟩

/-! ## C8 -/

/-- **C8**: automatic decision computation fails rather than selecting an
option when no positions have been submitted, and also fails when every
computed option score equals zero. -/
theorem C8_decide_fails_without_signal (d : Debate) :
    (latest_positions d.positions = [] → ∃ e, choose_decision d = .error e)
    ∧ ((∀ o ∈ d.options.dedup, specScore d.positions o = 0) →
        ∃ e, choose_decision d = .error e) := by
  constructor
  · intro hlat
    unfold choose_decision
    by_cases h1 : d.options.any (fun o => o == "") = true
    · rw [if_pos h1]
      exact ⟨_, rfl⟩
    · rw [if_neg h1]
      by_cases h2 : d.options.dedup.isEmpty = true
      · rw [if_pos h2]
        exact ⟨_, rfl⟩
      · rw [if_neg h2, if_pos (by simp [hlat])]
        exact ⟨_, rfl⟩
  · intro hz
    unfold choose_decision
    by_cases h1 : d.options.any (fun o => o == "") = true
    · rw [if_pos h1]
      exact ⟨_, rfl⟩
    · rw [if_neg h1]
      by_cases h2 : d.options.dedup.isEmpty = true
      · rw [if_pos h2]
        exact ⟨_, rfl⟩
      · rw [if_neg h2]
        by_cases h3 : (latest_positions d.positions).isEmpty = true
        · rw [if_pos h3]
          exact ⟨_, rfl⟩
        · rw [if_neg h3]
          have hany : (engineScores d).any (fun s => decide (0 < s.2)) = false := by
            rw [List.any_eq_false]
            intro s hs
            rw [engineScores_eq] at hs
            obtain ⟨o, ho, rfl⟩ := List.mem_map.mp hs
            simp [hz o ho]
          rw [if_pos (by simp [hany])]
          exact ⟨_, rfl⟩

/-- Witness for C8: a debate whose single position has confidence `0.0`
(all scores zero), and a debate with no positions at all. -/
theorem C8_witness :
    ((∀ o ∈ c8DebateZero.options.dedup, specScore c8DebateZero.positions o = 0)
     ∧ ∃ e, choose_decision c8DebateZero = .error e)
    ∧ (latest_positions c8DebateEmpty.positions = []
     ∧ ∃ e, choose_decision c8DebateEmpty = .error e) :=
  ⟨⟨by with_unfolding_all decide,
    (C8_decide_fails_without_signal c8DebateZero).2 (by with_unfolding_all decide)⟩,
   ⟨by with_unfolding_all rfl,
    (C8_decide_fails_without_signal c8DebateEmpty).1 (by with_unfolding_all rfl)⟩⟩

/-! ## C4 -/

/-- **C4**: once a debate's applied record is set, any further apply
attempt is a no-op that reports the prior apply: the persisted state is
returned untouched (so the linked task's owner, status, and notes are
unchanged and no broadcast message is appended) and the debate record is
returned unchanged. -/
theorem C4_reapply_is_noop (env : Env) (now : String) (st : PState) (d : Debate)
    (tid : String) (htid : d.task_id = some tid) (hne : tid ≠ "")
    (happ : d.applied.isSome = true)
    (sel stt : String) (om : List (String × String)) (ab sd : String) :
    apply_decision_to_task env now st d sel stt om ab sd
      = .ok st d ("Decision already applied to " ++ tid ++ "; skipped apply.") := by
  simp [apply_decision_to_task, htid, hne, happ]

/-- Witness for C4: re-applying the already-applied `c4Debate` leaves the
state and the debate untouched. -/
theorem C4_witness :
    c4Debate.task_id = some "task-1"
    ∧ ("task-1" : String) ≠ ""
    ∧ c4Debate.applied.isSome = true
    ∧ apply_decision_to_task allOk "t1" c4State c4Debate "x" "in_progress" [] "a" "a"
        = .ok c4State c4Debate ("Decision already applied to " ++ "task-1" ++ "; skipped apply.") :=
  ⟨rfl, by decide, rfl,
   C4_reapply_is_noop allOk "t1" c4State c4Debate "task-1" rfl (by decide) rfl
     "x" "in_progress" [] "a" "a"⟩

/-! ## C7 -/

/-- **C7**: `reclaim_stale_lock` removes a marker only when its age
strictly exceeds the staleness threshold, the recorded owning process is
not running, and the re-check immediately before deletion sees the same
inode/device identity; a marker younger than the threshold is never
reclaimed; a permission-denied probe counts as still running and blocks
reclaim. -/
theorem C7_stale_reclaim_guards
    (now stale_seconds : ℚ) (observed : Option StatInfo) (lock_pid : Option Int)
    (probe : Int → ProbeResult) (current : Option StatInfo) (unlink_ok : Bool) :
    (reclaim_stale_lock now stale_seconds observed lock_pid probe current unlink_ok = true →
      ∃ obs cur, observed = some obs ∧ current = some cur
        ∧ stale_seconds < now - obs.st_mtime
        ∧ process_is_running lock_pid probe = false
        ∧ cur.st_ino = obs.st_ino ∧ cur.st_dev = obs.st_dev)
    ∧ (∀ obs, observed = some obs → now - obs.st_mtime ≤ stale_seconds →
        reclaim_stale_lock now stale_seconds observed lock_pid probe current unlink_ok = false)
    ∧ (∀ p, lock_pid = some p → probe p = ProbeResult.permissionError →
        reclaim_stale_lock now stale_seconds observed lock_pid probe current unlink_ok = false) := by
  refine ⟨?_, ?_, ?_⟩
  · intro h
    cases observed with
    | none => simp [reclaim_stale_lock] at h
    | some obs =>
      cases current with
      | none => simp [reclaim_stale_lock] at h
      | some cur =>
        simp only [reclaim_stale_lock] at h
        by_cases hage : now - obs.st_mtime ≤ stale_seconds
        · rw [if_pos hage] at h
          exact absurd h (by simp)
        · rw [if_neg hage] at h
          by_cases hrun : process_is_running lock_pid probe = true
          · rw [if_pos hrun] at h
            exact absurd h (by simp)
          · rw [if_neg hrun] at h
            by_cases hid : cur.st_ino ≠ obs.st_ino ∨ cur.st_dev ≠ obs.st_dev
            · rw [if_pos hid] at h
              exact absurd h (by simp)
            · push_neg at hid
              have hrun' : process_is_running lock_pid probe = false := by
                revert hrun
                cases process_is_running lock_pid probe <;> simp
              exact ⟨obs, cur, rfl, rfl, not_le.mp hage, hrun', hid.1, hid.2⟩
  · intro obs hobs hage
    subst hobs
    simp only [reclaim_stale_lock]
    rw [if_pos hage]
  · intro p hp hprobe
    subst hp
    cases observed with
    | none => simp [reclaim_stale_lock]
    | some obs =>
      simp only [reclaim_stale_lock]
      by_cases hage : now - obs.st_mtime ≤ stale_seconds
      · rw [if_pos hage]
      · rw [if_neg hage, if_pos (by simp [process_is_running, hprobe])]

/-- Witness for C7: a marker 50 seconds old against a 300-second
threshold is not reclaimed, even though its owner probe reports the
process gone. -/
theorem C7_witness :
    (some c7Stat = some c7Stat)
    ∧ ((400 : ℚ) - c7Stat.st_mtime ≤ 300)
    ∧ reclaim_stale_lock 400 300 (some c7Stat) (some 5) c7Probe (some c7Stat) true = false :=
  ⟨rfl, by with_unfolding_all decide,
   (C7_stale_reclaim_guards 400 300 (some c7Stat) (some 5) c7Probe (some c7Stat) true).2.1
     c7Stat rfl (by with_unfolding_all decide)⟩

/-! ## C6 -/

/-- Counterexample for C6: a stored integer next-id `2` with an existing
record `task-5` is kept as `2` by the loader, not replaced by
`5 + 1 = 6` as the claim states. -/
theorem C6_counterexample :
    load_board_next_id "task-" (some 2) ["task-5"] = 2
    ∧ maxExistingId "task-" ["task-5"] = 5
    ∧ load_board_next_id "task-" (some 2) ["task-5"] ≠ 5 + 1 :=
  ⟨by with_unfolding_all rfl, by with_unfolding_all rfl, by with_unfolding_all decide⟩

lemma reconstructNextId_pos (pfx : String) (ids : List String) :
    1 ≤ reconstructNextId pfx ids := by
  simp only [reconstructNextId]
  by_cases h : maxExistingId pfx ids ≠ 0
  · rw [if_pos h]
    have : (0 : Int) ≤ (maxExistingId pfx ids : Int) := Int.ofNat_nonneg _
    omega
  · rw [if_neg h]

/-- **C6 (amended)**: the stored next-id counter is rebuilt as
`(max existing numeric id) + 1` (or `1` when no numeric ids exist) only
when it is absent, non-integer, or less than `1`; a stored integer `≥ 1`
is kept as-is, even when it is ≤ the maximum existing numeric id.  The
resulting counter is always ≥ 1. -/
theorem C6_next_id_normalization (pfx : String) (stored : Option Int) (ids : List String) :
    (∀ n, stored = some n → 1 ≤ n → load_board_next_id pfx stored ids = n)
    ∧ ((stored = none ∨ ∃ n, stored = some n ∧ n < 1) →
        load_board_next_id pfx stored ids
          = (if maxExistingId pfx ids ≠ 0 then (maxExistingId pfx ids : Int) + 1 else 1))
    ∧ 1 ≤ load_board_next_id pfx stored ids := by
  refine ⟨?_, ?_, ?_⟩
  · intro n hn h1
    subst hn
    simp only [load_board_next_id]
    rw [if_pos h1]
  · rintro (hn | ⟨n, hn, hlt⟩)
    · subst hn
      simp only [load_board_next_id, reconstructNextId]
    · subst hn
      simp only [load_board_next_id, reconstructNextId]
      rw [if_neg (by omega)]
  · cases stored with
    | none =>
      simp only [load_board_next_id]
      exact reconstructNextId_pos pfx ids
    | some n =>
      simp only [load_board_next_id]
      by_cases h1 : n ≥ 1
      · rw [if_pos h1]
        exact h1
      · rw [if_neg h1]
        exact reconstructNextId_pos pfx ids

/-- Witness for C6 (amended): a stored `3` is kept; an absent counter
over `["task-7"]` is rebuilt as `8`. -/
theorem C6_witness :
    ((some (3 : Int) = some 3) ∧ (1 ≤ (3 : Int))
      ∧ load_board_next_id "task-" (some 3) ["task-7"] = 3)
    ∧ ((none = (none : Option Int))
      ∧ load_board_next_id "task-" none ["task-7"]
          = (if maxExistingId "task-" ["task-7"] ≠ 0
             then (maxExistingId "task-" ["task-7"] : Int) + 1 else 1)) :=
  ⟨⟨rfl, by decide, (C6_next_id_normalization "task-" (some 3) ["task-7"]).1 3 rfl (by decide)⟩,
   ⟨rfl, (C6_next_id_normalization "task-" none ["task-7"]).2.1 (Or.inl rfl)⟩⟩

/-! ## C9 -/

lemma find_task_updateFirst (tasks : List TaskRec) (task_id : String) (t t' : TaskRec)
    (h : find_task tasks task_id = .ok t) (hid : t'.id = t.id) :
    find_task (updateFirstTask tasks task_id t') task_id = .ok t' := by
  induction tasks with
  | nil => simp [find_task] at h
  | cons a rest ih =>
    by_cases hp : (a.id != "" && a.id == task_id) = true
    · have ht : a = t := by
        simpa [find_task, List.find?_cons, hp] using h
      rw [updateFirstTask, if_pos hp]
      have hp' : (t'.id != "" && t'.id == task_id) = true := by
        rw [hid, ← ht]
        exact hp
      simp [find_task, List.find?_cons, hp']
    · rw [updateFirstTask, if_neg hp]
      have h' : find_task rest task_id = .ok t := by
        simpa [find_task, List.find?_cons, hp] using h
      simpa [find_task, List.find?_cons, hp] using ih h'

lemma find_debate_updateFirst (debates : List Debate) (debate_id : String) (d d' : Debate)
    (h : find_debate debates debate_id = .ok d) (hid : d'.id = d.id) :
    find_debate (updateFirstDebate debates debate_id d') debate_id = .ok d' := by
  induction debates with
  | nil => simp [find_debate] at h
  | cons a rest ih =>
    by_cases hp : (a.id != "" && a.id == debate_id) = true
    · have ht : a = d := by
        simpa [find_debate, List.find?_cons, hp] using h
      rw [updateFirstDebate, if_pos hp]
      have hp' : (d'.id != "" && d'.id == debate_id) = true := by
        rw [hid, ← ht]
        exact hp
      simp [find_debate, List.find?_cons, hp']
    · rw [updateFirstDebate, if_neg hp]
      have h' : find_debate rest debate_id = .ok d := by
        simpa [find_debate, List.find?_cons, hp] using h
      simpa [find_debate, List.find?_cons, hp] using ih h'

/-- **C9**: for an existing task and a registered member, `claim` fails
when the task is already completed, and otherwise forces the task's
owner to the claiming member and its status to `in_progress`. -/
theorem C9_claim_behaviour (env : Env) (now : String) (teamMembers : List String)
    (st : PState) (task_id member : String) (t : TaskRec)
    (hmem : member ∈ teamMembers) (ht : find_task st.taskBoard task_id = .ok t)
    (henv : env.taskWriteOk = true) :
    (t.status = "completed" →
      cmd_claim env now teamMembers st task_id member
        = .err st ("Cannot claim completed task: " ++ task_id))
    ∧ (t.status ≠ "completed" →
      cmd_claim env now teamMembers st task_id member
        = .ok ({ st with taskBoard := (updateFirstTask st.taskBoard task_id
              ({ t with owner := member, status := "in_progress", updated_at := now })) })
            (member ++ " claimed " ++ task_id)
      ∧ find_task (cmd_claim env now teamMembers st task_id member).state.taskBoard task_id
          = .ok ({ t with owner := member, status := "in_progress", updated_at := now })) := by
  have hens : ensure_registered_member teamMembers member = .ok () := by
    simp [ensure_registered_member, hmem]
  constructor
  · intro hc
    simp [cmd_claim, hens, ht, hc]
  · intro hc
    have hceq : (t.status == "completed") = false := by
      simp [hc]
    have heq : cmd_claim env now teamMembers st task_id member
        = .ok ({ st with taskBoard := (updateFirstTask st.taskBoard task_id
              ({ t with owner := member, status := "in_progress", updated_at := now })) })
            (member ++ " claimed " ++ task_id) := by
      simp [cmd_claim, hens, ht, hceq, henv]
    refine ⟨heq, ?_⟩
    rw [heq]
    exact find_task_updateFirst st.taskBoard task_id t _ ht rfl

/-- Witness for C9: claiming the pending `task-1` succeeds and forces
owner/status; claiming the completed `task-2` fails. -/
theorem C9_witness :
    ("a" ∈ (["a", "b"] : List String))
    ∧ find_task c9State.taskBoard "task-1" = .ok c9Task
    ∧ c9Task.status ≠ "completed"
    ∧ (cmd_claim allOk "t1" ["a", "b"] c9State "task-1" "a"
        = .ok ({ c9State with taskBoard := (updateFirstTask c9State.taskBoard "task-1"
              ({ c9Task with owner := "a", status := "in_progress", updated_at := "t1" })) })
            ("a" ++ " claimed " ++ "task-1")
       ∧ find_task (cmd_claim allOk "t1" ["a", "b"] c9State "task-1" "a").state.taskBoard
            "task-1"
          = .ok ({ c9Task with owner := "a", status := "in_progress", updated_at := "t1" }))
    ∧ find_task c9State.taskBoard "task-2" = .ok c9TaskDone
    ∧ c9TaskDone.status = "completed"
    ∧ cmd_claim allOk "t1" ["a", "b"] c9State "task-2" "a"
        = .err c9State ("Cannot claim completed task: " ++ "task-2") :=
  ⟨by decide, by with_unfolding_all rfl, by decide,
   (C9_claim_behaviour allOk "t1" ["a", "b"] c9State "task-1" "a" c9Task (by decide)
     (by with_unfolding_all rfl) rfl).2 (by decide),
   by with_unfolding_all rfl, rfl,
   (C9_claim_behaviour allOk "t1" ["a", "b"] c9State "task-2" "a" c9TaskDone (by decide)
     (by with_unfolding_all rfl) rfl).1 rfl⟩

/-! ## C10 -/

lemma mergeSort_le_pairwise (l : List String) :
    List.Pairwise (fun a b : String => a ≤ b) (l.mergeSort (fun a b => decide (a ≤ b))) := by
  have htrans : ∀ a b c : String,
      (decide (a ≤ b)) = true → (decide (b ≤ c)) = true → (decide (a ≤ c)) = true := by
    intro a b c hab hbc
    exact decide_eq_true (le_trans (of_decide_eq_true hab) (of_decide_eq_true hbc))
  have htotal : ∀ a b : String, ((decide (a ≤ b)) || (decide (b ≤ a))) = true := by
    intro a b
    rcases le_total a b with h | h
    · rw [decide_eq_true h]
      simp
    · rw [decide_eq_true h]
      simp
  exact (List.sorted_mergeSort htrans htotal l).imp (fun h => of_decide_eq_true h)

lemma sortedUnique_sorted (l : List String) : List.Sorted (· ≤ ·) (sortedUnique l) :=
  mergeSort_le_pairwise l.dedup

lemma sortedUnique_nodup (l : List String) : (sortedUnique l).Nodup := by
  rw [sortedUnique]
  exact ((List.mergeSort_perm l.dedup _).nodup_iff).mpr (List.nodup_dedup l)

lemma sortedUnique_mem (l : List String) (x : String) : x ∈ sortedUnique l ↔ x ∈ l := by
  rw [sortedUnique, List.mem_mergeSort, List.mem_dedup]

lemma sortedUnique_length (l : List String) : (sortedUnique l).length = l.dedup.length := by
  rw [sortedUnique, List.length_mergeSort]

/-- **C10**: a successfully created debate stores its options and members
as the sorted deduplication of the provided inputs (lexicographic order,
no duplicates, same elements), and the at-least-two minimum is enforced
on the deduplicated values, so inputs collapsing to fewer than two
distinct entries are rejected. -/
theorem C10_create_debate_normalizes (env : Env) (now : String) (st : PState)
    (topic : String) (task_id : Option String) (options members : List String)
    (decider : String) :
    (∀ st' d, create_debate env now st topic task_id options members decider = .ok (st', d) →
        d.options = sortedUnique options ∧ d.members = sortedUnique members
        ∧ List.Sorted (· ≤ ·) d.options ∧ d.options.Nodup
        ∧ (∀ x, x ∈ d.options ↔ x ∈ options)
        ∧ List.Sorted (· ≤ ·) d.members ∧ d.members.Nodup
        ∧ (∀ x, x ∈ d.members ↔ x ∈ members)
        ∧ 2 ≤ d.options.length ∧ 2 ≤ d.members.length)
    ∧ (options.dedup.length < 2 →
        isErrorE (create_debate env now st topic task_id options members decider) = true)
    ∧ (members.dedup.length < 2 →
        isErrorE (create_debate env now st topic task_id options members decider) = true) := by
  refine ⟨?_, ?_, ?_⟩
  · intro st' d h
    simp only [create_debate] at h
    split at h
    · exact Except.noConfusion h
    next hlenO =>
    split at h
    · exact Except.noConfusion h
    next hlenM =>
    split at h
    · exact Except.noConfusion h
    next hdec =>
    split at h
    · exact Except.noConfusion h
    next hfind =>
    split at h
    · exact Except.noConfusion h
    next hwrite =>
    simp only [Except.ok.injEq, Prod.mk.injEq] at h
    obtain ⟨hst, hd⟩ := h
    subst hd
    refine ⟨rfl, rfl, sortedUnique_sorted options, sortedUnique_nodup options,
      fun x => sortedUnique_mem options x, sortedUnique_sorted members,
      sortedUnique_nodup members, fun x => sortedUnique_mem members x, ?_, ?_⟩
    · simpa using Nat.le_of_not_lt hlenO
    · simpa using Nat.le_of_not_lt hlenM
  · intro hlen
    simp only [create_debate, isErrorE]
    rw [if_pos (by rw [sortedUnique_length]; exact hlen)]
  · intro hlen
    simp only [create_debate, isErrorE]
    by_cases h1 : (sortedUnique options).length < 2
    · rw [if_pos h1]
    · rw [if_neg h1, if_pos (by rw [sortedUnique_length]; exact hlen)]

/-! ## Helper lemmas about the apply / decide / orchestrate pipeline -/

lemma find_debate_ok_id (debates : List Debate) (debate_id : String) (d : Debate)
    (h : find_debate debates debate_id = .ok d) : d.id = debate_id ∧ d.id ≠ "" := by
  rw [find_debate] at h
  cases hfind : debates.find? (fun t => t.id != "" && t.id == debate_id) with
  | none =>
    rw [hfind] at h
    exact Except.noConfusion h
  | some t =>
    rw [hfind] at h
    have hp := List.find?_some hfind
    simp only [Bool.and_eq_true, bne_iff_ne, beq_iff_eq] at hp
    simp only [Except.ok.injEq] at h
    subst h
    exact ⟨hp.2, hp.1⟩

/-- `apply_decision_to_task` never touches the debate board or either
next-id counter, whichever way it ends. -/
lemma apply_decision_state_inv (env : Env) (now : String) (st : PState) (debate : Debate)
    (so ss : String) (om : List (String × String)) (ab sd : String) :
    (apply_decision_to_task env now st debate so ss om ab sd).state.debateBoard
        = st.debateBoard
    ∧ (apply_decision_to_task env now st debate so ss om ab sd).state.debateNextId
        = st.debateNextId
    ∧ (apply_decision_to_task env now st debate so ss om ab sd).state.taskNextId
        = st.taskNextId := by
  unfold apply_decision_to_task
  refine ⟨?_, ?_, ?_⟩ <;>
    · repeat' split
      all_goals rfl

/-- What a successful `apply_decision_to_task` does to the debate record:
id, decision, options, members and task link are untouched; either the
whole record is returned unchanged (no-op paths) or its status is now
`applied`; with a linked task and no prior applied record the status is
definitely `applied`. -/
lemma apply_decision_ok_debate (env : Env) (now : String) (st : PState) (debate : Debate)
    (so ss : String) (om : List (String × String)) (ab sd : String)
    (st2 : PState) (d2 : Debate) (note : String)
    (h : apply_decision_to_task env now st debate so ss om ab sd = .ok st2 d2 note) :
    d2.id = debate.id ∧ d2.decision = debate.decision ∧ d2.options = debate.options
    ∧ d2.members = debate.members ∧ d2.task_id = debate.task_id
    ∧ (d2 = debate ∨ d2.status = "applied")
    ∧ (hasLinkedTask debate = true → debate.applied = none → d2.status = "applied") := by
  simp only [apply_decision_to_task] at h
  split at h
  next heq =>
    -- no linked task
    simp only [ApplyResult.ok.injEq] at h
    obtain ⟨h1, h2, h3⟩ := h
    subst h2
    refine ⟨rfl, rfl, rfl, rfl, rfl, Or.inl rfl, fun hlink _ => ?_⟩
    simp [hasLinkedTask, heq] at hlink
  next tid heq =>
    split at h
    next htid =>
      -- empty-string task id
      simp only [ApplyResult.ok.injEq] at h
      obtain ⟨h1, h2, h3⟩ := h
      subst h2
      refine ⟨rfl, rfl, rfl, rfl, rfl, Or.inl rfl, fun hlink _ => ?_⟩
      simp [hasLinkedTask, heq, htid] at hlink
    next htid =>
      split at h
      next happ =>
        -- already applied
        simp only [ApplyResult.ok.injEq] at h
        obtain ⟨h1, h2, h3⟩ := h
        subst h2
        refine ⟨rfl, rfl, rfl, rfl, rfl, Or.inl rfl, fun _ hnone => ?_⟩
        rw [hnone] at happ
        simp at happ
      next happ =>
        split at h
        next => exact ApplyResult.noConfusion h
        next =>
          split at h
          next e hfind => exact ApplyResult.noConfusion h
          next task hfind =>
            split at h
            next => exact ApplyResult.noConfusion h
            next =>
              split at h
              next => exact ApplyResult.noConfusion h
              next =>
                simp only [ApplyResult.ok.injEq] at h
                obtain ⟨h1, h2, h3⟩ := h
                subst h2
                exact ⟨rfl, rfl, rfl, rfl, rfl, Or.inr rfl, fun _ _ => rfl⟩

/-- A failing `decide_finish` never mutates the debate board or the
next-id counters, and without `--apply` it persists nothing at all. -/
lemma decide_finish_err (env : Env) (now : String) (teamMembers : List String)
    (a : DecideArgs) (st : PState) (debate1 : Debate) (sel eff : String) (rec : Bool)
    (stE : PState) (msg : String)
    (h : decide_finish env now teamMembers a st debate1 sel eff rec = .err stE msg) :
    stE.debateBoard = st.debateBoard ∧ stE.debateNextId = st.debateNextId
    ∧ stE.taskNextId = st.taskNextId ∧ (a.apply = false → stE = st) := by
  unfold decide_finish at h
  split at h
  next stE' msg' heq =>
    -- the apply step itself failed
    simp only [OpResult.err.injEq] at h
    obtain ⟨h1, h2⟩ := h
    subst h1
    split at heq
    next hap =>
      split at heq
      next =>
        simp only [ApplyResult.err.injEq] at heq
        obtain ⟨h1, _⟩ := heq
        subst h1
        exact ⟨rfl, rfl, rfl, fun hfalse => by simp [hfalse] at hap⟩
      next ns hns =>
        have hinv := apply_decision_state_inv env now st debate1 sel a.status_on_apply
          a.owner_map eff ns
        rw [heq] at hinv
        exact ⟨hinv.1, hinv.2.1, hinv.2.2,
          fun hfalse => by simp [hfalse] at hap⟩
    next => exact ApplyResult.noConfusion heq
  next st2 d2 note2 heq =>
    split at h
    next =>
      -- the debate-board write failed
      simp only [OpResult.err.injEq] at h
      obtain ⟨h1, _⟩ := h
      subst h1
      split at heq
      next hap =>
        split at heq
        next => exact ApplyResult.noConfusion heq
        next ns hns =>
          have hinv := apply_decision_state_inv env now st debate1 sel a.status_on_apply
            a.owner_map eff ns
          rw [heq] at hinv
          exact ⟨hinv.1, hinv.2.1, hinv.2.2,
            fun hfalse => by simp [hfalse] at hap⟩
      next hap =>
        simp only [ApplyResult.ok.injEq] at heq
        obtain ⟨h1, _, _⟩ := heq
        subst h1
        exact ⟨rfl, rfl, rfl, fun _ => rfl⟩
    next => exact OpResult.noConfusion h

/-- A successful `decide_finish` writes exactly one debate record: the
board is the input board with the key debate replaced by a record that
keeps the id and the decision payload of `debate1`. -/
lemma decide_finish_ok (env : Env) (now : String) (teamMembers : List String)
    (a : DecideArgs) (st : PState) (debate1 : Debate) (sel eff : String) (rec : Bool)
    (st' : PState) (note : String)
    (h : decide_finish env now teamMembers a st debate1 sel eff rec = .ok st' note) :
    ∃ d2, d2.id = debate1.id ∧ d2.decision = debate1.decision
      ∧ (d2 = debate1 ∨ d2.status = "applied")
      ∧ (hasLinkedTask debate1 = true → debate1.applied = none → a.apply = true →
          d2.status = "applied")
      ∧ (a.apply = false → d2 = debate1)
      ∧ st'.debateBoard = updateFirstDebate st.debateBoard a.debate_id d2
      ∧ st'.debateNextId = st.debateNextId := by
  unfold decide_finish at h
  split at h
  next => exact OpResult.noConfusion h
  next st2 d2 note2 heq =>
    split at h
    next => exact OpResult.noConfusion h
    next =>
      simp only [OpResult.ok.injEq] at h
      obtain ⟨h1, _⟩ := h
      subst h1
      split at heq
      next hap =>
        split at heq
        next => exact ApplyResult.noConfusion heq
        next ns hns =>
          have hd2 := apply_decision_ok_debate env now st debate1 sel a.status_on_apply
            a.owner_map eff ns st2 d2 note2 heq
          have hinv := apply_decision_state_inv env now st debate1 sel a.status_on_apply
            a.owner_map eff ns
          rw [heq] at hinv
          exact ⟨d2, hd2.1, hd2.2.1,
            hd2.2.2.2.2.2.1,
            fun hlink hnone _ => hd2.2.2.2.2.2.2 hlink hnone,
            fun hfalse => by simp [hfalse] at hap,
            by
              have hb : st2.debateBoard = st.debateBoard := hinv.1
              simp [hb],
            by
              have hb : st2.debateNextId = st.debateNextId := hinv.2.1
              simp [hb]⟩
      next hap =>
        simp only [ApplyResult.ok.injEq] at heq
        obtain ⟨h1, h2, _⟩ := heq
        subst h1
        exact ⟨d2, by rw [← h2], by rw [← h2], Or.inl h2.symm,
          fun _ _ happly => absurd happly hap,
          fun _ => h2.symm, rfl, rfl⟩

/-- Any failing `cmd_decide_debate` leaves the debate board and both
next-id counters untouched; without `--apply` it leaves the whole state
untouched. -/
lemma cmd_decide_debate_err_state (env : Env) (now : String) (teamMembers : List String)
    (a : DecideArgs) (st : PState) (stE : PState) (msg : String)
    (h : cmd_decide_debate env now teamMembers a st = .err stE msg) :
    stE.debateBoard = st.debateBoard ∧ stE.debateNextId = st.debateNextId
    ∧ stE.taskNextId = st.taskNextId ∧ (a.apply = false → stE = st) := by
  unfold cmd_decide_debate at h
  repeat' split at h
  all_goals first
    | exact OpResult.noConfusion h
    | exact decide_finish_err _ _ _ _ _ _ _ _ _ _ _ h
    | (simp only [OpResult.err.injEq] at h
       obtain ⟨h1, h2⟩ := h
       subst h1
       exact ⟨rfl, rfl, rfl, fun _ => rfl⟩)

/-! ## C3 -/

/-- Counterexample for C3: with the broadcast append failing
(`c3Env.msgAppendOk = false`), `decide-debate --apply` fails with an
error, yet the persisted task board already differs from the
pre-operation board (the apply step's task-board write had succeeded);
only the debate board is left as it was. -/
theorem C3_counterexample :
    c3Result.isErr = true
    ∧ c3Result.state.taskBoard ≠ c3State.taskBoard
    ∧ c3Result.state.debateBoard = c3State.debateBoard :=
  ⟨by with_unfolding_all rfl, by with_unfolding_all decide, by with_unfolding_all rfl⟩

/-- **C3 (amended)**: a failing `cmd_decide_debate` never persists any
change to the debate board or to either next-id counter, and a failing
invocation without `--apply` persists nothing at all.  (With `--apply`,
a failure after the task-board write — broadcast append or debate-board
write — leaves the task board already updated, as the counterexample
shows, so the original claim's "neither board reflects a half-completed
transition" holds only for the debate board.) -/
theorem C3_failed_decide_persistence (env : Env) (now : String)
    (teamMembers : List String) (a : DecideArgs) (st : PState) (stE : PState) (msg : String)
    (h : cmd_decide_debate env now teamMembers a st = .err stE msg) :
    stE.debateBoard = st.debateBoard ∧ stE.debateNextId = st.debateNextId
    ∧ stE.taskNextId = st.taskNextId ∧ (a.apply = false → stE = st) :=
  cmd_decide_debate_err_state env now teamMembers a st stE msg h

/-- Witness for C3 (amended): the failing `c3Result` run keeps the
debate board and the counters intact. -/
theorem C3_witness :
    cmd_decide_debate c3Env "t1" ["a", "b"] c3Args c3State
        = .err c3Result.state "Unable to append JSONL (messages)."
    ∧ (c3Result.state.debateBoard = c3State.debateBoard
       ∧ c3Result.state.debateNextId = c3State.debateNextId
       ∧ c3Result.state.taskNextId = c3State.taskNextId
       ∧ (c3Args.apply = false → c3Result.state = c3State)) :=
  ⟨by with_unfolding_all rfl,
   C3_failed_decide_persistence c3Env "t1" ["a", "b"] c3Args c3State
     c3Result.state "Unable to append JSONL (messages)." (by with_unfolding_all rfl)⟩

/-! ## C5 -/

/-- **C5**: once a debate is `decided`, re-invoking decide with a manual
option different from the recorded one fails; re-invoking without a
conflicting option (and without `--apply`) returns the existing decision
with the state untouched; and in every outcome — error, plain return, or
`--apply` — the stored record's decision payload is never recomputed or
overwritten. -/
theorem C5_decided_record_immutable (env : Env) (now : String) (teamMembers : List String)
    (a : DecideArgs) (st : PState) (d : Debate) (dec : DecisionRec) (eff : String)
    (hfd : find_debate st.debateBoard a.debate_id = .ok d)
    (hst : d.status = "decided")
    (hdec : d.decision = some dec)
    (hvalid : decide_validate teamMembers a d = .ok eff)
    (hopt : dec.option ∈ d.options) :
    (a.decision ≠ "" ∧ a.decision ≠ dec.option →
      cmd_decide_debate env now teamMembers a st
        = .err st (a.debate_id ++ " is already decided as '" ++ dec.option ++ "'."))
    ∧ (¬(a.decision ≠ "" ∧ a.decision ≠ dec.option) →
       ¬(a.require_all_positions ∧
          missingMembers d.members (latest_positions d.positions) ≠ []) →
       a.apply = false →
      cmd_decide_debate env now teamMembers a st
        = .ok st (a.debate_id ++ " is already decided as '" ++ dec.option ++ "'."))
    ∧ (∀ d', find_debate (cmd_decide_debate env now teamMembers a st).state.debateBoard
          a.debate_id = .ok d' → d'.decision = some dec) := by
  have hred : cmd_decide_debate env now teamMembers a st
      = (if a.decision ≠ "" ∧ a.decision ≠ dec.option then
           .err st (a.debate_id ++ " is already decided as '" ++ dec.option ++ "'.")
         else if a.require_all_positions ∧
             missingMembers d.members (latest_positions d.positions) ≠ [] then
           .err st "Cannot apply decided debate yet; missing positions."
         else if !a.apply then
           .ok st (a.debate_id ++ " is already decided as '" ++ dec.option ++ "'.")
         else decide_finish env now teamMembers a st d dec.option eff false) := by
    simp only [cmd_decide_debate, hfd, hst, hvalid, hdec]
    simp [hopt]
  refine ⟨?_, ?_, ?_⟩
  · rintro ⟨hne, hcf⟩
    rw [hred, if_pos ⟨hne, hcf⟩]
  · intro hncf hreq hap
    rw [hred, if_neg hncf, if_neg hreq, if_pos (by simp [hap])]
  · intro d' hfind'
    by_cases hcf : a.decision ≠ "" ∧ a.decision ≠ dec.option
    · rw [hred, if_pos hcf] at hfind'
      simp only [OpResult.state] at hfind'
      rw [hfd] at hfind'
      simp only [Except.ok.injEq] at hfind'
      rw [← hfind']
      exact hdec
    · by_cases hreq : a.require_all_positions ∧
          missingMembers d.members (latest_positions d.positions) ≠ []
      · rw [hred, if_neg hcf, if_pos hreq] at hfind'
        simp only [OpResult.state] at hfind'
        rw [hfd] at hfind'
        simp only [Except.ok.injEq] at hfind'
        rw [← hfind']
        exact hdec
      · by_cases hap : a.apply = false
        · rw [hred, if_neg hcf, if_neg hreq, if_pos (by simp [hap])] at hfind'
          simp only [OpResult.state] at hfind'
          rw [hfd] at hfind'
          simp only [Except.ok.injEq] at hfind'
          rw [← hfind']
          exact hdec
        · have hap' : a.apply = true := by
            revert hap
            cases a.apply <;> simp
          rw [hred, if_neg hcf, if_neg hreq, if_neg (by simp [hap'])] at hfind'
          cases hfin : decide_finish env now teamMembers a st d dec.option eff false with
          | err stE msgE =>
            rw [hfin] at hfind'
            simp only [OpResult.state] at hfind'
            have hb := (decide_finish_err env now teamMembers a st d dec.option eff false
              stE msgE hfin).1
            rw [hb, hfd] at hfind'
            simp only [Except.ok.injEq] at hfind'
            rw [← hfind']
            exact hdec
          | ok stF noteF =>
            obtain ⟨d2, hid2, hdec2, _, _, _, hboard, _⟩ :=
              decide_finish_ok env now teamMembers a st d dec.option eff false stF noteF hfin
            rw [hfin] at hfind'
            simp only [OpResult.state] at hfind'
            rw [hboard] at hfind'
            have hkey := find_debate_ok_id st.debateBoard a.debate_id d hfd
            have := find_debate_updateFirst st.debateBoard a.debate_id d d2 hfd hid2
            rw [this] at hfind'
            simp only [Except.ok.injEq] at hfind'
            rw [← hfind', hdec2]
            exact hdec

/-- Witness for C5: on the decided `c5Debate`, a conflicting manual
option fails while a non-conflicting re-invocation returns the recorded
decision with nothing changed. -/
theorem C5_witness :
    (c5ArgsConflict.decision ≠ "" ∧ c5ArgsConflict.decision ≠ c5Decision.option)
    ∧ cmd_decide_debate allOk "t1" ["a", "b"] c5ArgsConflict c5State
        = .err c5State ("debate-1" ++ " is already decided as '" ++ "x" ++ "'.")
    ∧ c5ArgsNoConflict.apply = false
    ∧ cmd_decide_debate allOk "t1" ["a", "b"] c5ArgsNoConflict c5State
        = .ok c5State ("debate-1" ++ " is already decided as '" ++ "x" ++ "'.") :=
  ⟨⟨by decide, by decide⟩,
   (C5_decided_record_immutable allOk "t1" ["a", "b"] c5ArgsConflict c5State c5Debate
     c5Decision "a" (by with_unfolding_all rfl) rfl rfl (by with_unfolding_all rfl)
     (by decide)).1 ⟨by decide, by decide⟩,
   rfl,
   (C5_decided_record_immutable allOk "t1" ["a", "b"] c5ArgsNoConflict c5State c5Debate
     c5Decision "a" (by with_unfolding_all rfl) rfl rfl (by with_unfolding_all rfl)
     (by decide)).2.1 (by decide) (by with_unfolding_all decide) rfl⟩

/-! ## C2 -/

lemma statusRank_le_two (s : String) : statusRank s ≤ 2 := by
  unfold statusRank
  by_cases h1 : (s == "decided") = true
  · rw [if_pos h1]
    omega
  · rw [if_neg h1]
    by_cases h2 : (s == "applied") = true
    · rw [if_pos h2]
    · rw [if_neg h2]
      omega

lemma statusRank_le_one (s : String) (h : (s == "applied") = false) : statusRank s ≤ 1 := by
  unfold statusRank
  by_cases h1 : (s == "decided") = true
  · rw [if_pos h1]
  · rw [if_neg h1]
    simp [h]

lemma apply_decision_ok_state (env : Env) (now : String) (st : PState) (debate : Debate)
    (so ss : String) (om : List (String × String)) (ab sd : String)
    (st2 : PState) (d2 : Debate) (note : String)
    (h : apply_decision_to_task env now st debate so ss om ab sd = .ok st2 d2 note) :
    st2.debateBoard = st.debateBoard ∧ st2.debateNextId = st.debateNextId := by
  have hinv := apply_decision_state_inv env now st debate so ss om ab sd
  rw [h] at hinv
  exact ⟨hinv.1, hinv.2.1⟩

/-- Counterexample for C2: one `orchestrate-debate` invocation on an open
debate with all positions present and a linked task both decides it and
applies it — the status goes `open → applied` in a single call, i.e. two
forward transitions in the same invocation. -/
theorem C2_counterexample :
    debateStatusIn c2State "debate-1" = "open"
    ∧ c2Result.isErr = false
    ∧ debateStatusIn c2Result.state "debate-1" = "applied" :=
  ⟨by with_unfolding_all rfl, by with_unfolding_all rfl, by with_unfolding_all rfl⟩

/-- A successful `orchestrate_finish` writes exactly one debate record,
which keeps `debate1`'s id; it is either `debate1` unchanged or carries
status `applied`, and with a linked task and no prior applied record it
is definitely `applied`. -/
lemma orchestrate_finish_ok (env : Env) (now : String) (teamMembers : List String)
    (a : OrchArgs) (st : PState) (debate1 : Debate) (dec : DecisionRec) (eff : String)
    (st' : PState) (note : String)
    (h : orchestrate_finish env now teamMembers a st debate1 dec eff = .ok st' note) :
    ∃ d2, d2.id = debate1.id
      ∧ (d2 = debate1 ∨ d2.status = "applied")
      ∧ (hasLinkedTask debate1 = true → debate1.applied = none → d2.status = "applied")
      ∧ st'.debateBoard = updateFirstDebate st.debateBoard debate1.id d2
      ∧ st'.debateNextId = st.debateNextId := by
  unfold orchestrate_finish at h
  by_cases h1 : dec.option ∉ debate1.options
  · rw [if_pos h1] at h
    exact OpResult.noConfusion h
  · rw [if_neg h1] at h
    rcases hval : (if hasLinkedTask debate1 then
        validate_owner_map a.owner_map debate1.options teamMembers
      else Except.ok ()) with e | u
    · simp only [hval] at h
      exact OpResult.noConfusion h
    · simp only [hval] at h
      rcases hns : resolve_notify_sender teamMembers a.notify_from eff
          (hasLinkedTask debate1 && debate1.applied.isNone) with e | ns
      · simp only [hns] at h
        exact OpResult.noConfusion h
      · simp only [hns] at h
        rcases happly : apply_decision_to_task env now st debate1 dec.option
            a.status_on_apply a.owner_map eff ns with ⟨st2, d2, note2⟩ | ⟨stE, msg⟩
        · simp only [happly] at h
          by_cases hw : (!env.debateWriteOk) = true
          · rw [if_pos hw] at h
            exact OpResult.noConfusion h
          · rw [if_neg hw] at h
            simp only [OpResult.ok.injEq] at h
            obtain ⟨h1', _⟩ := h
            subst h1'
            have hd2 := apply_decision_ok_debate _ _ _ _ _ _ _ _ _ _ _ _ happly
            have hst2 := apply_decision_ok_state _ _ _ _ _ _ _ _ _ _ _ _ happly
            refine ⟨d2, hd2.1, hd2.2.2.2.2.2.1, hd2.2.2.2.2.2.2, ?_, ?_⟩
            · dsimp only
              rw [hst2.1]
            · dsimp only
              rw [hst2.2]
        · simp only [happly] at h
          exact OpResult.noConfusion h

/-- A successful `orchestrate_finish` leaves the board's record for the
debate with the written record and the forward-only status facts needed
for C2. -/
lemma orchestrate_finish_board (env : Env) (now : String) (teamMembers : List String)
    (a : OrchArgs) (st : PState) (debate1 : Debate) (dec : DecisionRec) (eff : String)
    (d d' : Debate) (st' : PState) (note : String)
    (hfd : find_debate st.debateBoard a.debate_id = .ok d)
    (hfind' : find_debate st'.debateBoard a.debate_id = .ok d')
    (hok : orchestrate_finish env now teamMembers a st debate1 dec eff = .ok st' note)
    (hid1 : debate1.id = d.id)
    (htask1 : debate1.task_id = d.task_id)
    (happlied1 : debate1.applied = d.applied)
    (hrank1 : statusRank d.status ≤ statusRank debate1.status) :
    statusRank d.status ≤ statusRank d'.status
    ∧ (hasLinkedTask d = true → d.applied = none → d'.status = "applied") := by
  obtain ⟨d2, hid2, hor2, hlinked2, hboard, _⟩ :=
    orchestrate_finish_ok env now teamMembers a st debate1 dec eff st' note hok
  have hkey := find_debate_ok_id st.debateBoard a.debate_id d hfd
  rw [hboard, hid1, hkey.1] at hfind'
  have hfound := find_debate_updateFirst st.debateBoard a.debate_id d d2 hfd
    (by rw [hid2, hid1, hkey.1])
  rw [hfound] at hfind'
  simp only [Except.ok.injEq] at hfind'
  subst hfind'
  constructor
  · rcases hor2 with h | h
    · rw [h]
      exact hrank1
    · rw [h]
      have h1 : statusRank d.status ≤ 2 := statusRank_le_two _
      have h2 : statusRank "applied" = 2 := by rfl
      omega
  · intro hlink hnone
    refine hlinked2 ?_ ?_
    · simp only [hasLinkedTask, htask1]
      simp only [hasLinkedTask] at hlink
      exact hlink
    · rw [happlied1, hnone]

/-- **C2 (amended)**: an `orchestrate-debate` invocation only moves the
debate forward in `open → decided → applied` rank; an invocation that
finds missing positions (or an already-applied debate) changes no debate
record; and when every member has a position, the debate's applied
record is unset and a task is linked, a single successful invocation
carries the debate all the way to `applied` (deciding and applying in
the same call) — so a caller needs re-invocations only to wait out
missing positions. -/
theorem C2_orchestrate_transitions (env : Env) (now : String) (teamMembers : List String)
    (a : OrchArgs) (st : PState) (d : Debate)
    (hid : a.debate_id ≠ "")
    (hfd : find_debate st.debateBoard a.debate_id = .ok d) :
    ∀ st' note, cmd_orchestrate_debate env now teamMembers a st = .ok st' note →
      ∀ d', find_debate st'.debateBoard a.debate_id = .ok d' →
        statusRank d.status ≤ statusRank d'.status
        ∧ (missingMembers d.members (latest_positions d.positions) ≠ [] → d' = d)
        ∧ (d.status = "applied" → d' = d)
        ∧ (d.status ≠ "applied" →
            missingMembers d.members (latest_positions d.positions) = [] →
            hasLinkedTask d = true → d.applied = none → d'.status = "applied") := by
  intro st' note hok d' hfind'
  rw [cmd_orchestrate_debate.eq_def, if_pos hid] at hok
  simp only [hfd] at hok
  simp only [orchestrate_step] at hok
  by_cases hg1 : (d.status == "applied") = true
  · rw [if_pos hg1] at hok
    simp only [OpResult.ok.injEq] at hok
    obtain ⟨h1, _⟩ := hok
    subst h1
    rw [hfd] at hfind'
    simp only [Except.ok.injEq] at hfind'
    subst hfind'
    have happd : d.status = "applied" := by simpa using hg1
    exact ⟨le_refl _, fun _ => rfl, fun _ => rfl, fun hne _ _ _ => absurd happd hne⟩
  · rw [if_neg hg1] at hok
    have happB : (d.status == "applied") = false := by
      revert hg1
      cases (d.status == "applied") <;> simp
    by_cases hg2 : (d.members.any fun m => m == "") = true
    · rw [if_pos hg2] at hok
      exact OpResult.noConfusion hok
    · rw [if_neg hg2] at hok
      by_cases hg3 : (d.options.any fun o => o == "") = true
      · rw [if_pos hg3] at hok
        exact OpResult.noConfusion hok
      · rw [if_neg hg3] at hok
        generalize heff :
          (if d.decider ≠ "" then d.decider
           else if a.decider ≠ "" then a.decider else "lead") = eff at hok
        by_cases hg4 : eff ∉ d.members
        · rw [if_pos hg4] at hok
          exact OpResult.noConfusion hok
        · rw [if_neg hg4] at hok
          rcases hens : ensure_registered_member teamMembers eff with e | u
          · simp only [hens] at hok
            exact OpResult.noConfusion hok
          · simp only [hens] at hok
            by_cases hmiss : missingMembers d.members (latest_positions d.positions) ≠ []
            · rw [if_pos hmiss] at hok
              have hstate : st'.debateBoard = st.debateBoard := by
                by_cases hsr : a.send_reminders = true
                · rw [if_pos hsr] at hok
                  rcases hns : resolve_notify_sender teamMembers a.notify_from eff true
                      with e | ns
                  · simp only [hns] at hok
                    exact OpResult.noConfusion hok
                  · simp only [hns] at hok
                    by_cases hw : (!env.msgAppendOk) = true
                    · rw [if_pos hw] at hok
                      exact OpResult.noConfusion hok
                    · rw [if_neg hw] at hok
                      simp only [OpResult.ok.injEq] at hok
                      obtain ⟨h1, _⟩ := hok
                      subst h1
                      rfl
                · rw [if_neg hsr] at hok
                  simp only [OpResult.ok.injEq] at hok
                  obtain ⟨h1, _⟩ := hok
                  subst h1
                  rfl
              rw [hstate, hfd] at hfind'
              simp only [Except.ok.injEq] at hfind'
              subst hfind'
              exact ⟨le_refl _, fun _ => rfl, fun _ => rfl,
                fun _ hm0 _ _ => absurd hm0 hmiss⟩
            · rw [if_neg hmiss] at hok
              have hmiss0 : missingMembers d.members (latest_positions d.positions) = [] := by
                revert hmiss
                by_cases h : missingMembers d.members (latest_positions d.positions) = [] <;>
                  simp [h]
              rcases hdsrc : d.decision with _ | dec0
              · rw [hdsrc] at hok
                rcases hch : choose_decision d with e | res
                · simp only [hch] at hok
                  exact OpResult.noConfusion hok
                · obtain ⟨sel, meth, sc, rest⟩ := res
                  simp only [hch] at hok
                  have hconcl := orchestrate_finish_board env now teamMembers a st
                    _ _ eff d d' st' note hfd hfind' hok rfl rfl rfl
                    (by
                      show statusRank d.status ≤ statusRank "decided"
                      have h2 : statusRank "decided" = 1 := by rfl
                      have h1 := statusRank_le_one d.status happB
                      omega)
                  exact ⟨hconcl.1, fun hm => absurd hm hmiss,
                    fun hap => by rw [hap] at happB; simp at happB,
                    fun _ _ hlink hnone => hconcl.2 hlink hnone⟩
              · rw [hdsrc] at hok
                have hconcl := orchestrate_finish_board env now teamMembers a st
                  d dec0 eff d d' st' note hfd hfind' hok rfl rfl rfl (le_refl _)
                exact ⟨hconcl.1, fun hm => absurd hm hmiss,
                  fun hap => by rw [hap] at happB; simp at happB,
                  fun _ _ hlink hnone => hconcl.2 hlink hnone⟩

/-- Witness for C2 (amended): an invocation that finds a member without a
position performs no transition and leaves the debate unchanged. -/
theorem C2_witness :
    ("debate-9" : String) ≠ ""
    ∧ find_debate c2WState.debateBoard "debate-9" = .ok c2WDebate
    ∧ cmd_orchestrate_debate allOk "t1" ["a", "b"] c2WArgs c2WState
        = .ok c2WState ("debate-9" ++ " waiting for positions")
    ∧ (statusRank c2WDebate.status ≤ statusRank c2WDebate.status
       ∧ (missingMembers c2WDebate.members (latest_positions c2WDebate.positions) ≠ [] →
           c2WDebate = c2WDebate)
       ∧ (c2WDebate.status = "applied" → c2WDebate = c2WDebate)
       ∧ (c2WDebate.status ≠ "applied" →
           missingMembers c2WDebate.members (latest_positions c2WDebate.positions) = [] →
           hasLinkedTask c2WDebate = true → c2WDebate.applied = none →
           c2WDebate.status = "applied")) :=
  ⟨by decide, by with_unfolding_all rfl, by with_unfolding_all rfl,
   C2_orchestrate_transitions allOk "t1" ["a", "b"] c2WArgs c2WState c2WDebate (by decide)
     (by with_unfolding_all rfl) c2WState ("debate-9" ++ " waiting for positions")
     (by with_unfolding_all rfl) c2WDebate (by with_unfolding_all rfl)⟩

/-- Witness for C10: inputs `["b","a","b"]` / `["m2","m1","m2"]` are
stored as `["a","b"]` / `["m1","m2"]`. -/
theorem C10_witness :
    c10Debate.options = sortedUnique ["b", "a", "b"]
    ∧ c10Debate.members = sortedUnique ["m2", "m1", "m2"]
    ∧ List.Sorted (· ≤ ·) c10Debate.options ∧ c10Debate.options.Nodup
    ∧ (∀ x, x ∈ c10Debate.options ↔ x ∈ (["b", "a", "b"] : List String))
    ∧ List.Sorted (· ≤ ·) c10Debate.members ∧ c10Debate.members.Nodup
    ∧ (∀ x, x ∈ c10Debate.members ↔ x ∈ (["m2", "m1", "m2"] : List String))
    ∧ 2 ≤ c10Debate.options.length ∧ 2 ≤ c10Debate.members.length :=
  (C10_create_debate_normalizes allOk "t1" c10State "topic" none ["b", "a", "b"]
    ["m2", "m1", "m2"] "m1").1 c10StateAfter c10Debate (by with_unfolding_all rfl)

end TeamOps
